import Mathlib

/-
Verification of the multi-source JWK Set resolution coordinator
(package jwkset, file http.go) against its natural-language specification.

The Go source is shallowly embedded: the coordinator code of http.go is
translated function by function.  Collaborators that live in the repository
but outside the provided source (the Storage interface, the in-memory store,
the HTTP-backed remote store) and external libraries (net/url, context,
golang.org/x/time/rate) are modelled from the specification, as noted in the
doc comment of each such definition.  Go map iteration over the remote
sources is modelled by an association list carrying one concrete iteration
order; the unspecified order of Go maps is captured by quantifying over
permutations of that list.
-/

namespace Jwkset

/-- Go %q formatting of a string (escaping of exotic characters is not
modelled; key IDs and URLs of interest contain none). -/
def quoteGo (s : String) : String := "\x22" ++ s ++ "\x22"

/-- A Go error value: which sentinel errors it matches via errors.Is, plus
its message. -/
structure GoErr where
  isKeyNotFound : Bool
  isNewClient : Bool
  msg : String
deriving DecidableEq, Repr

/-- ErrKeyNotFound sentinel of the repository. -/
def ErrKeyNotFound : GoErr := ⟨true, false, "kid could not be found in JWK Set"⟩

/-- ErrNewClient sentinel (http.go line 17). -/
def ErrNewClient : GoErr := ⟨false, true, "failed to create new JWK Set client"⟩

/-- Modelled from the spec: the error context.DeadlineExceeded / a cancelled
rate-limiter wait returns. -/
def errContextDeadlineExceeded : GoErr := ⟨false, false, "context deadline exceeded"⟩

/-- fmt.Errorf with a leading format text and a trailing wrapped error:
errors.Is answers are preserved, the message is prefixed. -/
def GoErr.wrap (e : GoErr) (pre : String) : GoErr :=
  ⟨e.isKeyNotFound, e.isNewClient, pre ++ e.msg⟩

/-- fmt.Errorf with a leading wrapped error and trailing text, as in
fmt.Errorf with ErrNewClient first (http.go line 52). -/
def GoErr.wrapSuffix (e : GoErr) (suf : String) : GoErr :=
  ⟨e.isKeyNotFound, e.isNewClient, e.msg ++ suf⟩

/-- errors.Join of an error with ErrNewClient: matches both errors'
sentinels. -/
def GoErr.joinNewClient (e : GoErr) : GoErr :=
  ⟨e.isKeyNotFound, true, e.msg ++ "\n" ++ ErrNewClient.msg⟩

/-- A JSON Web Key: its key ID plus opaque key material. -/
structure JWK where
  kid : String
  payload : Nat
deriving DecidableEq, Repr

/-- The not-found error a storage returns for a missing key ID, carrying the
key ID, as fmt.Errorf of ErrKeyNotFound and the quoted ID (http.go line 213
and the memory store). -/
def errKeyNotFoundFor (keyID : String) : GoErr :=
  ⟨true, false, ErrKeyNotFound.msg ++ " " ++ quoteGo keyID⟩

/-- Modelled from the spec: the Key Store contract (the Storage interface and
the in-memory store are repository code not under src/).  A store is its
current contents plus optional scripted failures for each operation,
letting the coordinator be verified against arbitrary collaborator
behaviour. -/
structure SimStore where
  keys : List JWK
  readFail : Option GoErr := none
  deleteFail : Option GoErr := none
  readAllFail : Option GoErr := none
  writeFail : Option GoErr := none
deriving DecidableEq, Repr

/-- Modelled from the spec: NewMemoryStorage, a fresh empty in-memory store
whose operations never fail. -/
def NewMemoryStorage : SimStore := ⟨[], none, none, none, none⟩

/-- Modelled from the spec: keyRead of the Key Store contract; not-found is
signalled by an error matching ErrKeyNotFound. -/
def SimStore.KeyRead (s : SimStore) (keyID : String) : Except GoErr JWK :=
  match s.readFail with
  | some e => .error e
  | none =>
    match s.keys.find? (fun j => j.kid == keyID) with
    | some j => .ok j
    | none => .error (errKeyNotFoundFor keyID)

/-- Modelled from the spec: keyDelete of the Key Store contract, returning
whether a key was deleted. -/
def SimStore.KeyDelete (s : SimStore) (keyID : String) :
    (Bool × Option GoErr) × SimStore :=
  match s.deleteFail with
  | some e => ((false, some e), s)
  | none =>
    if s.keys.any (fun j => j.kid == keyID) then
      ((true, none), { s with keys := s.keys.filter (fun j => !(j.kid == keyID)) })
    else
      ((false, none), s)

/-- Modelled from the spec: keyReadAll of the Key Store contract. -/
def SimStore.KeyReadAll (s : SimStore) : Except GoErr (List JWK) :=
  match s.readAllFail with
  | some e => .error e
  | none => .ok s.keys

/-- Modelled from the spec: keyWrite of the Key Store contract; an in-memory
store upserts by key ID. -/
def SimStore.KeyWrite (s : SimStore) (j : JWK) : Option GoErr × SimStore :=
  match s.writeFail with
  | some e => (some e, s)
  | none =>
    if s.keys.any (fun k => k.kid == j.kid) then
      (none, { s with keys := s.keys.map (fun k => if k.kid == j.kid then j else k) })
    else
      (none, { s with keys := s.keys ++ [j] })

/-- The export operations of the Key Store contract. -/
inductive ExportKind where
  | json
  | jsonPublic
  | jsonPrivate
  | jsonWithOptions
  | marshal
  | marshalWithOptions
deriving DecidableEq, Repr

/-- Modelled from the spec: a store's export operations return a marshaled
snapshot of its contents; the format itself is out of scope, so a snapshot
is the export kind, the option values passed, and the contents. -/
def SimStore.exportSnapshot (s : SimStore) (k : ExportKind) (mo vo : Nat) :
    (ExportKind × Nat × Nat) × List JWK :=
  ((k, mo, vo), s.keys)

/-- The refresh-error callback configured on a remote store: absent, the
default slog-logging handler closed over a URL, or a caller-supplied one. -/
inductive RefreshHandler where
  | noHandler
  | defaultLog (url : String)
  | custom (tag : Nat)
deriving DecidableEq, Repr

/-- Modelled from the spec: HTTPClientStorageOptions of the remote store
collaborator (refresh interval, refresh-error handler, first-request
error-suppression flag); fields irrelevant to the coordinator are omitted. -/
structure HTTPClientStorageOptions where
  noErrorReturnFirstHTTPReq : Bool := false
  refreshErrorHandler : RefreshHandler := RefreshHandler.noHandler
  refreshIntervalNs : Nat := 0
deriving DecidableEq, Repr

instance {ε α : Type} [DecidableEq ε] [DecidableEq α] : DecidableEq (Except ε α) := fun a b =>
  match a, b with
  | Except.error x, Except.error y =>
    match decEq x y with
    | Decidable.isTrue h => Decidable.isTrue (congrArg Except.error h)
    | Decidable.isFalse h => Decidable.isFalse (fun hc => h (Except.error.inj hc))
  | Except.ok x, Except.ok y =>
    match decEq x y with
    | Decidable.isTrue h => Decidable.isTrue (congrArg Except.ok h)
    | Decidable.isFalse h => Decidable.isFalse (fun hc => h (Except.ok.inj hc))
  | Except.error _, Except.ok _ => Decidable.isFalse (fun hc => Except.noConfusion hc)
  | Except.ok _, Except.error _ => Decidable.isFalse (fun hc => Except.noConfusion hc)

/-- Modelled from the spec: the Remote Key Store collaborator.  Its contents
behave as a SimStore; a forced refresh either fails or atomically replaces
the store's state with a scripted next state (new contents, and whatever
read behaviour the collaborator exhibits afterwards). -/
structure HTTPStorage where
  store : SimStore
  refreshResult : Except GoErr SimStore
  options : HTTPClientStorageOptions
deriving DecidableEq, Repr

/-- Modelled from the spec: refresh re-fetches and atomically replaces the
remote store's key set, or fails leaving it unchanged. -/
def HTTPStorage.refresh (h : HTTPStorage) : Option GoErr × HTTPStorage :=
  match h.refreshResult with
  | .error e => (some e, h)
  | .ok s2 => (none, { h with store := s2 })

/-- A remote store's read delegates to its current contents. -/
def HTTPStorage.KeyRead (h : HTTPStorage) (keyID : String) : Except GoErr JWK :=
  h.store.KeyRead keyID

/-- A remote store's delete delegates to its current contents. -/
def HTTPStorage.KeyDelete (h : HTTPStorage) (keyID : String) :
    (Bool × Option GoErr) × HTTPStorage :=
  match h.store.KeyDelete keyID with
  | (r, s2) => (r, { h with store := s2 })

/-- Modelled from the spec: a context carrying an optional deadline,
expressed as remaining nanoseconds. -/
structure Ctx where
  deadlineNs : Option Nat
deriving DecidableEq, Repr

/-- context.Background: no deadline. -/
def Ctx.background : Ctx := ⟨none⟩

/-- Modelled from the spec: context.WithTimeout; the effective deadline is
the sooner of the parent deadline and the new timeout. -/
def Ctx.withTimeout (ctx : Ctx) (d : Nat) : Ctx :=
  match ctx.deadlineNs with
  | none => ⟨some d⟩
  | some p => ⟨some (min p d)⟩

/-- Modelled from the spec: a golang.org/x/time/rate limiter, reduced to its
configuration and the delay currently needed before the next token. -/
structure RateLimiter where
  limitEveryNs : Nat
  burst : Nat
  delayNeededNs : Nat
deriving DecidableEq, Repr

/-- rate.NewLimiter with a fresh (full) token bucket. -/
def rateNewLimiter (everyNs : Nat) (burst : Nat) : RateLimiter :=
  ⟨everyNs, burst, 0⟩

/-- Modelled from the spec: Limiter.Wait blocks until a token is available or
the context deadline passes, failing in the latter case. -/
def RateLimiter.wait (l : RateLimiter) (ctx : Ctx) : Except GoErr Unit :=
  match ctx.deadlineNs with
  | none => .ok ()
  | some d => if l.delayNeededNs ≤ d then .ok () else .error errContextDeadlineExceeded

/-- HTTPClient (http.go lines 41-47); the Go map of remote sources is an
association list carrying one concrete iteration order. -/
structure HTTPClient where
  given : SimStore
  httpURLs : List (String × HTTPStorage)
  prioritizeHTTP : Bool
  rateLimitWaitMax : Nat
  refreshUnknownKID : Option RateLimiter
deriving DecidableEq, Repr

/-- Observable events of one coordinator call: which sources were consulted,
which remote stores were refreshed (and whether the refresh succeeded),
which refresh-error handlers were invoked, and the rate-limiter wait. -/
inductive Event where
  | readGiven
  | readRemote (u : String)
  | limiterWait
  | refreshed (u : String) (ok : Bool)
  | handlerInvoked (u : String) (h : RefreshHandler)
deriving DecidableEq, Repr

def wrapReadGiven (keyID : String) (e : GoErr) : GoErr :=
  e.wrap ("failed to find JWT key with ID " ++ quoteGo keyID ++ " in given storage due to error: ")

def wrapReadHTTP (keyID : String) (e : GoErr) : GoErr :=
  e.wrap ("failed to find JWT key with ID " ++ quoteGo keyID ++ " in HTTP storage due to error: ")

def wrapDeleteGiven (keyID : String) (e : GoErr) : GoErr :=
  e.wrap ("failed to delete key with ID " ++ quoteGo keyID ++ " from given storage due to error: ")

def wrapDeleteHTTP (keyID : String) (e : GoErr) : GoErr :=
  e.wrap ("failed to delete key with ID " ++ quoteGo keyID ++ " from HTTP storage due to error: ")

def wrapLimiterWait (e : GoErr) : GoErr :=
  e.wrap "failed to wait for JWK Set refresh rate limiter due to error: "

/-- The remote-source loop of KeyRead (http.go lines 162-172): not-found
continues, any other error aborts wrapped, a hit returns. -/
def readRemoteLoop (keyID : String) :
    List (String × HTTPStorage) → Option (Except GoErr JWK) × List Event
  | [] => (none, [])
  | (u, h) :: rest =>
    match h.KeyRead keyID with
    | .error e =>
      if e.isKeyNotFound then
        match readRemoteLoop keyID rest with
        | (r, evs) => (r, Event.readRemote u :: evs)
      else
        (some (.error (wrapReadHTTP keyID e)), [Event.readRemote u])
    | .ok j => (some (.ok j), [Event.readRemote u])

/-- The given-store consultation of KeyRead (http.go lines 152-160 and
174-182): none means not-found was swallowed and the search continues. -/
def readGivenStep (c : HTTPClient) (keyID : String) : Option (Except GoErr JWK) :=
  match c.given.KeyRead keyID with
  | .error e =>
    if e.isKeyNotFound then none
    else some (.error (wrapReadGiven keyID e))
  | .ok j => some (.ok j)

/-- The refresh-and-retry loop of KeyRead (http.go lines 194-211): each
remote source is refreshed; a refresh failure invokes the source's
refresh-error handler (if any) and iteration continues; after a successful
refresh the key is re-read from that source only, returning on first
success, aborting on a non-not-found read error. -/
def refreshLoop (keyID : String) :
    List (String × HTTPStorage) →
      Option (Except GoErr JWK) × List Event × List (String × HTTPStorage)
  | [] => (none, [], [])
  | (u, h) :: rest =>
    match h.refresh with
    | (some _, h2) =>
      let evs0 :=
        if h2.options.refreshErrorHandler = RefreshHandler.noHandler then
          [Event.refreshed u false]
        else
          [Event.refreshed u false, Event.handlerInvoked u h2.options.refreshErrorHandler]
      match refreshLoop keyID rest with
      | (r, evs, rest2) => (r, evs0 ++ evs, (u, h2) :: rest2)
    | (none, h2) =>
      match h2.KeyRead keyID with
      | .error e =>
        if e.isKeyNotFound then
          match refreshLoop keyID rest with
          | (r, evs, rest2) =>
            (r, Event.refreshed u true :: Event.readRemote u :: evs, (u, h2) :: rest2)
        else
          (some (.error (wrapReadHTTP keyID e)),
           [Event.refreshed u true, Event.readRemote u], (u, h2) :: rest)
      | .ok j =>
        (some (.ok j), [Event.refreshed u true, Event.readRemote u], (u, h2) :: rest)

/-- The context the rate-limiter wait runs under (http.go lines 185-189): a
positive maximum wait bounds the caller's context by a timeout. -/
def effectiveWaitCtx (c : HTTPClient) (ctx : Ctx) : Ctx :=
  if 0 < c.rateLimitWaitMax then ctx.withTimeout c.rateLimitWaitMax else ctx

/-- The refresh-on-unknown-key-ID phase of KeyRead (http.go lines 184-213),
including the final not-found error carrying the key ID. -/
def refreshPhase (c : HTTPClient) (ctx : Ctx) (keyID : String) :
    Except GoErr JWK × List Event × HTTPClient :=
  match c.refreshUnknownKID with
  | none => (.error (errKeyNotFoundFor keyID), [], c)
  | some limiter =>
    match limiter.wait (effectiveWaitCtx c ctx) with
    | .error e => (.error (wrapLimiterWait e), [Event.limiterWait], c)
    | .ok _ =>
      match refreshLoop keyID c.httpURLs with
      | (r, evs, stores) =>
        let c2 := { c with httpURLs := stores }
        match r with
        | some res => (res, Event.limiterWait :: evs, c2)
        | none => (.error (errKeyNotFoundFor keyID), Event.limiterWait :: evs, c2)

/-- The outcome of one KeyRead call: its result, the observable events in
order, and the client afterwards (forced refreshes mutate remote stores). -/
structure ReadOutcome where
  result : Except GoErr JWK
  events : List Event
  client : HTTPClient
deriving DecidableEq, Repr

/-- KeyRead (http.go lines 150-214). -/
def HTTPClient.KeyRead (c : HTTPClient) (ctx : Ctx) (keyID : String) : ReadOutcome :=
  if c.prioritizeHTTP then
    match readRemoteLoop keyID c.httpURLs with
    | (some res, evs) => ⟨res, evs, c⟩
    | (none, evs) =>
      match readGivenStep c keyID with
      | some res => ⟨res, evs ++ [Event.readGiven], c⟩
      | none =>
        match refreshPhase c ctx keyID with
        | (res, evs2, c2) => ⟨res, evs ++ [Event.readGiven] ++ evs2, c2⟩
  else
    match readGivenStep c keyID with
    | some res => ⟨res, [Event.readGiven], c⟩
    | none =>
      match readRemoteLoop keyID c.httpURLs with
      | (some res, evs) => ⟨res, Event.readGiven :: evs, c⟩
      | (none, evs) =>
        match refreshPhase c ctx keyID with
        | (res, evs2, c2) => ⟨res, Event.readGiven :: (evs ++ evs2), c2⟩

/-- The remote-source loop of KeyDelete (http.go lines 139-147). -/
def deleteRemoteLoop (keyID : String) :
    List (String × HTTPStorage) → Except GoErr Bool × List (String × HTTPStorage)
  | [] => (.ok false, [])
  | (u, h) :: rest =>
    match h.KeyDelete keyID with
    | ((ok, errOpt), h2) =>
      match errOpt with
      | some e =>
        if e.isKeyNotFound then
          if ok then (.ok true, (u, h2) :: rest)
          else
            match deleteRemoteLoop keyID rest with
            | (r, rest2) => (r, (u, h2) :: rest2)
        else
          (.error (wrapDeleteHTTP keyID e), (u, h2) :: rest)
      | none =>
        if ok then (.ok true, (u, h2) :: rest)
        else
          match deleteRemoteLoop keyID rest with
          | (r, rest2) => (r, (u, h2) :: rest2)

/-- KeyDelete (http.go lines 131-149); the Go (ok, err) pair is an Except
with ok-payload the deletion flag. -/
def HTTPClient.KeyDelete (c : HTTPClient) (keyID : String) :
    Except GoErr Bool × HTTPClient :=
  match c.given.KeyDelete keyID with
  | ((ok, errOpt), g2) =>
    let c1 := { c with given := g2 }
    match errOpt with
    | some e =>
      if e.isKeyNotFound then
        if ok then (.ok true, c1)
        else
          match deleteRemoteLoop keyID c1.httpURLs with
          | (r, stores) => (r, { c1 with httpURLs := stores })
      else
        (.error (wrapDeleteGiven keyID e), c1)
    | none =>
      if ok then (.ok true, c1)
      else
        match deleteRemoteLoop keyID c1.httpURLs with
        | (r, stores) => (r, { c1 with httpURLs := stores })

/-- The remote-source loop of KeyReadAll (http.go lines 220-226). -/
def readAllRemoteLoop : List (String × HTTPStorage) → Except GoErr (List JWK)
  | [] => .ok []
  | (u, h) :: rest =>
    match h.store.KeyReadAll with
    | .error e =>
      .error (e.wrap ("failed to snapshot HTTP keys from " ++ quoteGo u ++ " due to error: "))
    | .ok js =>
      match readAllRemoteLoop rest with
      | .error e2 => .error e2
      | .ok js2 => .ok (js ++ js2)

/-- KeyReadAll (http.go lines 215-228). -/
def HTTPClient.KeyReadAll (c : HTTPClient) : Except GoErr (List JWK) :=
  match c.given.KeyReadAll with
  | .error e => .error (e.wrap "failed to snapshot given keys due to error: ")
  | .ok js =>
    match readAllRemoteLoop c.httpURLs with
    | .error e => .error e
    | .ok js2 => .ok (js ++ js2)

/-- KeyWrite (http.go lines 229-231): delegates to the given store only. -/
def HTTPClient.KeyWrite (c : HTTPClient) (j : JWK) : Option GoErr × HTTPClient :=
  match c.given.KeyWrite j with
  | (e, g2) => (e, { c with given := g2 })

/-- The write-back loop of combineStorage (http.go lines 282-287). -/
def writeAllLoop (m : SimStore) : List JWK → Except GoErr SimStore
  | [] => .ok m
  | j :: rest =>
    match m.KeyWrite j with
    | (some e, _) => .error (e.wrap "failed to write key to memory storage due to error: ")
    | (none, m2) => writeAllLoop m2 rest

/-- combineStorage (http.go lines 276-289). -/
def HTTPClient.combineStorage (c : HTTPClient) : Except GoErr SimStore :=
  match c.KeyReadAll with
  | .error e => .error (e.wrap "failed to snapshot keys due to error: ")
  | .ok jwks => writeAllLoop NewMemoryStorage jwks

/-- The shared shape of every export method of HTTPClient (http.go lines
233-274): combine the storage, wrapping a failure, then delegate the export
to the combined store. -/
def HTTPClient.exportVia (c : HTTPClient) (k : ExportKind) (mo vo : Nat) :
    Except GoErr ((ExportKind × Nat × Nat) × List JWK) :=
  match c.combineStorage with
  | .error e => .error (e.wrap "failed to combine storage due to error: ")
  | .ok m => .ok (m.exportSnapshot k mo vo)

/-- JSON (http.go lines 233-239). -/
def HTTPClient.JSON (c : HTTPClient) : Except GoErr ((ExportKind × Nat × Nat) × List JWK) :=
  c.exportVia ExportKind.json 0 0

/-- JSONPublic (http.go lines 240-246). -/
def HTTPClient.JSONPublic (c : HTTPClient) : Except GoErr ((ExportKind × Nat × Nat) × List JWK) :=
  c.exportVia ExportKind.jsonPublic 0 0

/-- JSONPrivate (http.go lines 247-253). -/
def HTTPClient.JSONPrivate (c : HTTPClient) : Except GoErr ((ExportKind × Nat × Nat) × List JWK) :=
  c.exportVia ExportKind.jsonPrivate 0 0

/-- JSONWithOptions (http.go lines 254-260); the marshal and validation
options are opaque values threaded through. -/
def HTTPClient.JSONWithOptions (c : HTTPClient) (mo vo : Nat) :
    Except GoErr ((ExportKind × Nat × Nat) × List JWK) :=
  c.exportVia ExportKind.jsonWithOptions mo vo

/-- Marshal (http.go lines 261-267). -/
def HTTPClient.Marshal (c : HTTPClient) : Except GoErr ((ExportKind × Nat × Nat) × List JWK) :=
  c.exportVia ExportKind.marshal 0 0

/-- MarshalWithOptions (http.go lines 268-274). -/
def HTTPClient.MarshalWithOptions (c : HTTPClient) (mo vo : Nat) :
    Except GoErr ((ExportKind × Nat × Nat) × List JWK) :=
  c.exportVia ExportKind.marshalWithOptions mo vo

/-- Splits a character list at the first "://" separator into the scheme and
the remainder. -/
def schemeSplit : List Char → Option (List Char × List Char)
  | [] => none
  | ':' :: '/' :: '/' :: rest => some ([], rest)
  | c :: rest =>
    match schemeSplit rest with
    | some (s, r) => some (c :: s, r)
    | none => none

/-- Modelled from the spec: url.ParseRequestURI of the standard library; an
identifier must parse as a well-formed absolute URL (a nonempty alphabetic
scheme, separator, nonempty remainder); normalization is the identity. -/
def isAbsoluteURL (u : String) : Bool :=
  match schemeSplit u.data with
  | some (scheme, rest) => !scheme.isEmpty && scheme.all Char.isAlpha && !rest.isEmpty
  | none => false

/-- Modelled from the spec: url.ParseRequestURI, fallible URL parsing. -/
def parseRequestURI (u : String) : Except GoErr String :=
  if isAbsoluteURL u then .ok u
  else .error ⟨false, false, "parse " ++ quoteGo u ++ ": invalid URI for request"⟩

/-- Modelled from the spec: NewStorageFromHTTP constructs a Remote Key Store
from an optional parsed URL and configuration; the spec records no failure
mode for it, so construction always succeeds with empty contents. -/
def NewStorageFromHTTP (_u : Option String) (opts : HTTPClientStorageOptions) :
    Except GoErr HTTPStorage :=
  .ok ⟨NewMemoryStorage, .ok NewMemoryStorage, opts⟩

/-- HTTPClientOptions (http.go lines 21-38); a nil map value marks a bare
identifier whose remote store must be auto-created. -/
structure HTTPClientOptions where
  given : Option SimStore := none
  httpURLs : List (String × Option HTTPStorage) := []
  prioritizeHTTP : Bool := false
  rateLimitWaitMax : Nat := 0
  refreshUnknownKID : Option RateLimiter := none
  storageOptions : List (HTTPClientStorageOptions → HTTPClientStorageOptions) := []

/-- The URL-resolution loop of NewHTTPClient (http.go lines 54-65). -/
def resolveHTTPURLs :
    List (String × Option HTTPStorage) → Except GoErr (List (String × HTTPStorage))
  | [] => .ok []
  | (u, some h) :: rest =>
    match resolveHTTPURLs rest with
    | .error e => .error e
    | .ok rest2 => .ok ((u, h) :: rest2)
  | (u, none) :: rest =>
    match parseRequestURI u with
    | .error e =>
      .error ((e.joinNewClient).wrap ("failed to parse given URL " ++ quoteGo u ++ ": "))
    | .ok parsed =>
      match NewStorageFromHTTP none {} with
      | .error e =>
        .error ((e.joinNewClient).wrap
          ("failed to create HTTP client storage for " ++ quoteGo parsed ++ ": "))
      | .ok h =>
        match resolveHTTPURLs rest with
        | .error e => .error e
        | .ok rest2 => .ok ((u, h) :: rest2)

/-- NewHTTPClient (http.go lines 50-78). -/
def NewHTTPClient (options : HTTPClientOptions) : Except GoErr HTTPClient :=
  if options.given.isNone && options.httpURLs.isEmpty then
    .error (ErrNewClient.wrapSuffix ": no given keys or HTTP URLs")
  else
    match resolveHTTPURLs options.httpURLs with
    | .error e => .error e
    | .ok stores =>
      let given :=
        match options.given with
        | some g => g
        | none => NewMemoryStorage
      .ok ⟨given, stores, options.prioritizeHTTP, options.rateLimitWaitMax,
           options.refreshUnknownKID⟩

def timeMinuteNs : Nat := 60 * 1000000000

def timeHourNs : Nat := 3600 * 1000000000

/-- Insertion into the Go map of remote sources: replace an existing key or
append a new binding. -/
def insertURL (l : List (String × Option HTTPStorage)) (u : String) (h : HTTPStorage) :
    List (String × Option HTTPStorage) :=
  if l.any (fun p => p.1 == u) then
    l.map (fun p => if p.1 == u then (u, some h) else p)
  else
    l ++ [(u, some h)]

/-- The per-URL construction loop of NewDefaultHTTPClientCtx (http.go lines
101-127): parse the URL, build the default storage options (first-request
error suppression, the slog-based refresh-error handler closed over the URL,
hourly refresh), apply caller storage options, construct the remote store. -/
def buildDefaultURLs (storageOpts : List (HTTPClientStorageOptions → HTTPClientStorageOptions)) :
    List String → Except GoErr (List (String × HTTPStorage))
  | [] => .ok []
  | u :: rest =>
    match parseRequestURI u with
    | .error e =>
      .error ((e.joinNewClient).wrap ("failed to parse given URL " ++ quoteGo u ++ ": "))
    | .ok parsed =>
      let options0 : HTTPClientStorageOptions :=
        { noErrorReturnFirstHTTPReq := true
          refreshErrorHandler := RefreshHandler.defaultLog parsed
          refreshIntervalNs := timeHourNs }
      let options := storageOpts.foldl (fun o f => f o) options0
      match NewStorageFromHTTP (some parsed) options with
      | .error e =>
        .error ((e.joinNewClient).wrap
          ("failed to create HTTP client storage for " ++ quoteGo parsed ++ ": "))
      | .ok c =>
        match buildDefaultURLs storageOpts rest with
        | .error e => .error e
        | .ok rest2 => .ok ((parsed, c) :: rest2)

/-- NewDefaultHTTPClientCtx (http.go lines 92-129): default client options
are an empty remote map, a one-minute maximum rate-limit wait and a
one-token limiter replenishing every five minutes; caller options are
applied, each URL is resolved, and NewHTTPClient finishes construction. -/
def NewDefaultHTTPClientCtx (_ctx : Ctx) (urls : List String)
    (opts : List (HTTPClientOptions → HTTPClientOptions)) : Except GoErr HTTPClient :=
  let clientOptions0 : HTTPClientOptions :=
    { httpURLs := []
      rateLimitWaitMax := timeMinuteNs
      refreshUnknownKID := some (rateNewLimiter (5 * timeMinuteNs) 1) }
  let clientOptions := opts.foldl (fun o f => f o) clientOptions0
  match buildDefaultURLs clientOptions.storageOptions urls with
  | .error e => .error e
  | .ok stores =>
    NewHTTPClient
      { clientOptions with
        httpURLs := stores.foldl (fun acc p => insertURL acc p.1 p.2) clientOptions.httpURLs }

/-- NewDefaultHTTPClient (http.go lines 87-89). -/
def NewDefaultHTTPClient (urls : List String)
    (opts : List (HTTPClientOptions → HTTPClientOptions)) : Except GoErr HTTPClient :=
  NewDefaultHTTPClientCtx Ctx.background urls opts

/-- Whether an Except value is a success. -/
def exceptIsOk {ε α : Type} : Except ε α → Bool
  | .ok _ => true
  | .error _ => false

/-- Whether a store currently holds a key with the given ID. -/
def SimStore.holds (s : SimStore) (keyID : String) : Bool :=
  s.keys.any (fun j => j.kid == keyID)

/-- Whether reading the given ID from a store yields a not-found error. -/
def storeNotFound (s : SimStore) (keyID : String) : Bool :=
  match s.KeyRead keyID with
  | .error e => e.isKeyNotFound
  | .ok _ => false

/-- Follows the spec's words: the write-back step of combine — write one key
into the accumulated in-memory store, a write failure aborting wrapped. -/
def specCombineStep (acc : Except GoErr SimStore) (j : JWK) : Except GoErr SimStore :=
  match acc with
  | .error e => .error e
  | .ok m =>
    match m.KeyWrite j with
    | (some e, _) => .error (e.wrap "failed to write key to memory storage due to error: ")
    | (none, m2) => .ok m2

/-- Follows the spec's words for combine: build a fresh empty in-memory
store and write every key produced by readAll into it in sequence. -/
def specCombine (c : HTTPClient) : Except GoErr SimStore :=
  match c.KeyReadAll with
  | .error e => .error (e.wrap "failed to snapshot keys due to error: ")
  | .ok jwks => jwks.foldl specCombineStep (Except.ok NewMemoryStorage)

/-- Follows the spec's words: every export operation delegates to the
combined store's corresponding export, wrapping a combine failure. -/
def specExport (c : HTTPClient) (k : ExportKind) (mo vo : Nat) :
    Except GoErr ((ExportKind × Nat × Nat) × List JWK) :=
  match specCombine c with
  | .error e => .error (e.wrap "failed to combine storage due to error: ")
  | .ok m => .ok (m.exportSnapshot k mo vo)

/-- The error NewHTTPClient produces for a bare identifier failing URL
parsing. -/
def parseErrFor (u : String) : GoErr :=
  ((⟨false, false, "parse " ++ quoteGo u ++ ": invalid URI for request"⟩ :
      GoErr).joinNewClient).wrap ("failed to parse given URL " ++ quoteGo u ++ ": ")

/-- Whether a remote-source entry, when force-refreshed during the
unknown-key-ID phase, still fails to produce the given key ID: its refresh
fails outright, or the refreshed contents are readable but lack the ID. -/
def remoteRefreshMisses (p : String × HTTPStorage) (keyID : String) : Bool :=
  match p.2.refreshResult with
  | .error _ => true
  | .ok s2 => s2.readFail.isNone && s2.keys.all (fun j => !(j.kid == keyID))

/-- The consultation events of a KeyRead call whose pre-refresh phase misses
in every source: each source consulted exactly once, in priority order. -/
def missEvents (c : HTTPClient) : List Event :=
  if c.prioritizeHTTP then
    c.httpURLs.map (fun p => Event.readRemote p.1) ++ [Event.readGiven]
  else
    Event.readGiven :: c.httpURLs.map (fun p => Event.readRemote p.1)

/-- The events one all-missing pass of the refresh loop produces. -/
def refreshMissEvents (keyID : String) : List (String × HTTPStorage) → List Event
  | [] => []
  | (u, h) :: rest =>
    (match h.refreshResult with
     | .error _ =>
       if h.options.refreshErrorHandler = RefreshHandler.noHandler then
         [Event.refreshed u false]
       else
         [Event.refreshed u false, Event.handlerInvoked u h.options.refreshErrorHandler]
     | .ok _ => [Event.refreshed u true, Event.readRemote u]) ++ refreshMissEvents keyID rest

/-- A remote-source entry after one forced refresh: a successful refresh
replaces the contents, a failed one leaves the store unchanged. -/
def refreshUpd (p : String × HTTPStorage) : String × HTTPStorage :=
  match p.2.refreshResult with
  | .error _ => p
  | .ok s2 => (p.1, { p.2 with store := s2 })

/-- Whether a refresh succeeds for an entry. -/
def refreshedOk (p : String × HTTPStorage) : Bool :=
  match p.2.refreshResult with
  | .ok _ => true
  | .error _ => false

/-- Whether an event is a forced refresh of the given source. -/
def isRefreshEventFor (u : String) : Event → Bool
  | Event.refreshed v _ => v == u
  | _ => false

/-- The first key a failure-free scan of the remote list yields for an ID. -/
def firstHit (keyID : String) : List (String × HTTPStorage) → Option JWK
  | [] => none
  | p :: rest =>
    match p.2.store.keys.find? (fun j => j.kid == keyID) with
    | some j => some j
    | none => firstHit keyID rest

/-- Removal of every key with the given ID from a store's contents. -/
def removeKid (s : SimStore) (keyID : String) : SimStore :=
  { s with keys := s.keys.filter (fun j => !(j.kid == keyID)) }

/-- Removal of the key from the first remote source holding it. -/
def removeFirstRemote (keyID : String) :
    List (String × HTTPStorage) → List (String × HTTPStorage)
  | [] => []
  | (u, h) :: rest =>
    if h.store.holds keyID then (u, { h with store := removeKid h.store keyID }) :: rest
    else (u, h) :: removeFirstRemote keyID rest

/-- The client state a delete is expected to leave behind: the key removed
from the first source, in priority order, that holds it. -/
def specDeleteClient (c : HTTPClient) (keyID : String) : HTTPClient :=
  if c.given.holds keyID then { c with given := removeKid c.given keyID }
  else { c with httpURLs := removeFirstRemote keyID c.httpURLs }

theorem resolveHTTPURLs_isOk (l : List (String × Option HTTPStorage)) :
    exceptIsOk (resolveHTTPURLs l) = !(l.any (fun p => p.2.isNone && !isAbsoluteURL p.1)) := by
  induction l with
  | nil => rfl
  | cons p rest ih =>
    obtain ⟨u, so⟩ := p
    cases so with
    | some h =>
      cases hres : resolveHTTPURLs rest with
      | error e =>
        rw [hres] at ih
        simp only [resolveHTTPURLs, hres, List.any_cons, exceptIsOk] at ih ⊢
        simp [← ih]
      | ok r2 =>
        rw [hres] at ih
        simp only [resolveHTTPURLs, hres, List.any_cons, exceptIsOk] at ih ⊢
        simp [← ih]
    | none =>
      by_cases habs : isAbsoluteURL u = true
      · cases hres : resolveHTTPURLs rest with
        | error e =>
          rw [hres] at ih
          simp only [resolveHTTPURLs, parseRequestURI, habs, if_true, NewStorageFromHTTP,
            hres, List.any_cons, exceptIsOk] at ih ⊢
          simp [habs, ← ih]
        | ok r2 =>
          rw [hres] at ih
          simp only [resolveHTTPURLs, parseRequestURI, habs, if_true, NewStorageFromHTTP,
            hres, List.any_cons, exceptIsOk] at ih ⊢
          simp [habs, ← ih]
      · have habs2 : isAbsoluteURL u = false := by
          cases hval : isAbsoluteURL u
          · rfl
          · exact absurd hval habs
        simp [resolveHTTPURLs, parseRequestURI, habs2, exceptIsOk]

theorem resolveHTTPURLs_first_bad (pre post : List (String × Option HTTPStorage)) (u : String)
    (hpre : ∀ p ∈ pre, p.2 ≠ none ∨ isAbsoluteURL p.1 = true)
    (hu : isAbsoluteURL u = false) :
    resolveHTTPURLs (pre ++ (u, none) :: post) = Except.error (parseErrFor u) := by
  induction pre with
  | nil =>
    simp only [List.nil_append, resolveHTTPURLs, parseRequestURI, hu]
    rfl
  | cons p rest ih =>
    obtain ⟨v, so⟩ := p
    have hrest := ih (fun q hq => hpre q (List.mem_cons_of_mem _ hq))
    cases so with
    | some h => simp [resolveHTTPURLs, hrest]
    | none =>
      have habs : isAbsoluteURL v = true := by
        rcases hpre (v, none) (List.mem_cons_self _ _) with hne | ht
        · exact absurd rfl hne
        · exact ht
      simp [resolveHTTPURLs, parseRequestURI, habs, NewStorageFromHTTP, hrest]

theorem resolveHTTPURLs_all_some (stores : List (String × HTTPStorage)) :
    resolveHTTPURLs (stores.map (fun p => (p.1, some p.2))) = Except.ok stores := by
  induction stores with
  | nil => rfl
  | cons p rest ih =>
    obtain ⟨u, h⟩ := p
    simp [resolveHTTPURLs, ih]

/-- C1: the convenience construction path with a plain URL list and no
overriding options applies the documented defaults — hourly background
refresh, first-request error suppression, the default logging refresh-error
callback, a one-minute maximum rate-limit wait, and a single-token
five-minute refresh rate limiter — but leaves the remote-priority flag
disabled, contradicting the claim and the doc comment of
NewDefaultHTTPClient (src/http.go line 84), which promises that remote HTTP
sources are prioritized over the given storage. -/
theorem c1_default_client_missing_http_priority :
    NewDefaultHTTPClient ["http://example.com"] [] =
      Except.ok
        { given := NewMemoryStorage
          httpURLs := [("http://example.com",
            { store := NewMemoryStorage
              refreshResult := Except.ok NewMemoryStorage
              options :=
                { noErrorReturnFirstHTTPReq := true
                  refreshErrorHandler := RefreshHandler.defaultLog "http://example.com"
                  refreshIntervalNs := timeHourNs } })]
          prioritizeHTTP := false
          rateLimitWaitMax := timeMinuteNs
          refreshUnknownKID := some (rateNewLimiter (5 * timeMinuteNs) 1) } := by
  rfl

/-- C9: construction fails exactly when no local store is supplied and the
remote mapping is empty, or some remote identifier without a pre-built store
is not a well-formed absolute URL; the URL-parse failure names that URL and
matches ErrNewClient; on success a missing local store is replaced by a
fresh empty in-memory store. -/
theorem c9_construction_errors (o : HTTPClientOptions) :
    (exceptIsOk (NewHTTPClient o) = false ↔
      (o.given = none ∧ o.httpURLs = []) ∨
      ∃ u, (u, (none : Option HTTPStorage)) ∈ o.httpURLs ∧ isAbsoluteURL u = false) ∧
    (∀ pre post u, o.httpURLs = pre ++ (u, none) :: post →
      (∀ p ∈ pre, p.2 ≠ none ∨ isAbsoluteURL p.1 = true) →
      isAbsoluteURL u = false →
      NewHTTPClient o = Except.error (parseErrFor u) ∧
      (parseErrFor u).msg =
        "failed to parse given URL " ++ quoteGo u ++ ": " ++
          ("parse " ++ quoteGo u ++ ": invalid URI for request" ++ "\n" ++ ErrNewClient.msg) ∧
      (parseErrFor u).isNewClient = true) ∧
    (∀ c, NewHTTPClient o = Except.ok c →
      c.given = (match o.given with | some g => g | none => NewMemoryStorage)) := by
  refine ⟨?_, ?_, ?_⟩
  · by_cases hb : (o.given.isNone && o.httpURLs.isEmpty) = true
    · rw [Bool.and_eq_true] at hb
      obtain ⟨hg, he⟩ := hb
      have hb : (o.given.isNone && o.httpURLs.isEmpty) = true := by rw [hg, he]; rfl
      have hg2 : o.given = none := Option.isNone_iff_eq_none.mp hg
      have he2 : o.httpURLs = [] := by
        cases hl : o.httpURLs
        · rfl
        · rw [hl] at he; cases he
      simp [NewHTTPClient, hb, exceptIsOk, hg2, he2]
    · have hmain : exceptIsOk (NewHTTPClient o) = exceptIsOk (resolveHTTPURLs o.httpURLs) := by
        cases hres : resolveHTTPURLs o.httpURLs with
        | error e => simp [NewHTTPClient, hb, hres, exceptIsOk]
        | ok stores => simp [NewHTTPClient, hb, hres, exceptIsOk]
      rw [hmain, resolveHTTPURLs_isOk]
      constructor
      · intro hx
        refine Or.inr ?_
        have hany : o.httpURLs.any (fun p => p.2.isNone && !isAbsoluteURL p.1) = true := by
          cases hval : o.httpURLs.any (fun p => p.2.isNone && !isAbsoluteURL p.1)
          · rw [hval] at hx; cases hx
          · rfl
        obtain ⟨p, hp, hcond⟩ := List.any_eq_true.mp hany
        obtain ⟨v, so⟩ := p
        rw [Bool.and_eq_true] at hcond
        obtain ⟨hnone, hbad⟩ := hcond
        have hso : so = none := Option.isNone_iff_eq_none.mp hnone
        subst hso
        refine ⟨v, hp, ?_⟩
        cases hval2 : isAbsoluteURL v
        · rfl
        · rw [hval2] at hbad; cases hbad
      · rintro (⟨hg, he⟩ | ⟨v, hv, hbad⟩)
        · exfalso
          apply hb
          rw [hg, he]
          rfl
        · have hany : o.httpURLs.any (fun p => p.2.isNone && !isAbsoluteURL p.1) = true :=
            List.any_eq_true.mpr ⟨(v, none), hv, by simp [hbad]⟩
          rw [hany]
          rfl
  · intro pre post u hsplit hpre hu
    refine ⟨?_, rfl, rfl⟩
    have hb : (o.given.isNone && o.httpURLs.isEmpty) = false := by
      rw [hsplit]
      cases hg : o.given.isNone
      · rfl
      · cases pre <;> rfl
    have hres := resolveHTTPURLs_first_bad pre post u hpre hu
    rw [← hsplit] at hres
    simp [NewHTTPClient, hb, hres]
  · intro c hc
    by_cases hb : (o.given.isNone && o.httpURLs.isEmpty) = true
    · simp [NewHTTPClient, hb] at hc
    · cases hres : resolveHTTPURLs o.httpURLs with
      | error e => simp [NewHTTPClient, hb, hres] at hc
      | ok stores =>
        simp [NewHTTPClient, hb, hres] at hc
        rw [← hc]

/-- C9 witness: a configuration with no local store and one malformed bare
identifier is rejected with an error naming that identifier. -/
theorem c9_witness :
    exceptIsOk (NewHTTPClient { httpURLs := [("::bad::", none)] }) = false ∧
    NewHTTPClient { httpURLs := [("::bad::", none)] } = Except.error (parseErrFor "::bad::") := by
  have h := c9_construction_errors { httpURLs := [("::bad::", none)] }
  refine ⟨?_, ?_⟩
  · exact h.1.mpr (Or.inr ⟨"::bad::", by simp, by decide⟩)
  · exact (h.2.1 [] [] "::bad::" rfl (by simp) (by decide)).1

/-- C10: when every remote-map entry carries a pre-built store, construction
never parses or validates the identifiers: it succeeds for any identifier
strings (well-formed or not), keeping them verbatim. -/
theorem c10_prebuilt_store_skips_validation (o : HTTPClientOptions)
    (stores : List (String × HTTPStorage))
    (hmap : o.httpURLs = stores.map (fun p => (p.1, some p.2)))
    (hne : o.given ≠ none ∨ stores ≠ []) :
    NewHTTPClient o =
      Except.ok
        ⟨(match o.given with | some g => g | none => NewMemoryStorage), stores,
         o.prioritizeHTTP, o.rateLimitWaitMax, o.refreshUnknownKID⟩ := by
  have hb : (o.given.isNone && o.httpURLs.isEmpty) = false := by
    rcases hne with hg | hs
    · have : o.given.isNone = false := by
        cases hval : o.given
        · exact absurd hval hg
        · rfl
      rw [this]
      rfl
    · cases hst : stores with
      | nil => exact absurd hst hs
      | cons q qs =>
        rw [hmap, hst]
        cases o.given.isNone <;> rfl
  have hres := resolveHTTPURLs_all_some stores
  rw [← hmap] at hres
  simp [NewHTTPClient, hb, hres]

theorem readAllRemoteLoop_ok (l : List (String × HTTPStorage))
    (h : ∀ p ∈ l, p.2.store.readAllFail = none) :
    readAllRemoteLoop l = Except.ok ((l.map (fun p => p.2.store.keys)).flatten) := by
  induction l with
  | nil => rfl
  | cons p rest ih =>
    obtain ⟨u, hs⟩ := p
    have hp : hs.store.readAllFail = none := h (u, hs) (List.mem_cons_self _ _)
    have hrest := ih (fun q hq => h q (List.mem_cons_of_mem _ hq))
    simp [readAllRemoteLoop, SimStore.KeyReadAll, hp, hrest]

theorem readAllRemoteLoop_first_bad (pre post : List (String × HTTPStorage)) (u : String)
    (h : HTTPStorage) (e : GoErr)
    (hpre : ∀ p ∈ pre, p.2.store.readAllFail = none)
    (he : h.store.readAllFail = some e) :
    readAllRemoteLoop (pre ++ (u, h) :: post) =
      Except.error
        (e.wrap ("failed to snapshot HTTP keys from " ++ quoteGo u ++ " due to error: ")) := by
  induction pre with
  | nil => simp [readAllRemoteLoop, SimStore.KeyReadAll, he]
  | cons q rest ih =>
    obtain ⟨v, hv⟩ := q
    have hq : hv.store.readAllFail = none := hpre (v, hv) (List.mem_cons_self _ _)
    have hrest := ih (fun r hr => hpre r (List.mem_cons_of_mem _ hr))
    simp [readAllRemoteLoop, SimStore.KeyReadAll, hq, hrest]

/-- C7: KeyReadAll returns the local store's keys followed by every remote
source's keys appended in iteration order, with no de-duplication by key ID;
a local-store failure aborts the call wrapped, and a failure from a single
remote source aborts the whole call wrapped with that source's
identifier. -/
theorem c7_keyReadAll_concatenates (c : HTTPClient) :
    (c.given.readAllFail = none → (∀ p ∈ c.httpURLs, p.2.store.readAllFail = none) →
      c.KeyReadAll =
        Except.ok (c.given.keys ++ (c.httpURLs.map (fun p => p.2.store.keys)).flatten)) ∧
    (∀ e, c.given.readAllFail = some e →
      c.KeyReadAll = Except.error (e.wrap "failed to snapshot given keys due to error: ")) ∧
    (∀ pre u h post e, c.given.readAllFail = none →
      c.httpURLs = pre ++ (u, h) :: post →
      (∀ p ∈ pre, p.2.store.readAllFail = none) →
      h.store.readAllFail = some e →
      c.KeyReadAll =
        Except.error
          (e.wrap ("failed to snapshot HTTP keys from " ++ quoteGo u ++ " due to error: "))) := by
  refine ⟨?_, ?_, ?_⟩
  · intro hg hr
    simp [HTTPClient.KeyReadAll, SimStore.KeyReadAll, hg, readAllRemoteLoop_ok _ hr]
  · intro e he
    simp [HTTPClient.KeyReadAll, SimStore.KeyReadAll, he]
  · intro pre u h post e hg hsplit hpre he
    have hloop := readAllRemoteLoop_first_bad pre post u h e hpre he
    rw [← hsplit] at hloop
    simp [HTTPClient.KeyReadAll, SimStore.KeyReadAll, hg, hloop]

/-- C7 witness: local containing A, one remote containing A and B, another
containing C yield the sequence A, A, B, C with the duplicate ID
preserved. -/
theorem c7_witness :
    ({ given := { keys := [⟨"a", 1⟩] }
       httpURLs := [("r1", ⟨{ keys := [⟨"a", 1⟩, ⟨"b", 2⟩] }, Except.ok NewMemoryStorage, {}⟩),
                    ("r2", ⟨{ keys := [⟨"c", 3⟩] }, Except.ok NewMemoryStorage, {}⟩)]
       prioritizeHTTP := false
       rateLimitWaitMax := 0
       refreshUnknownKID := none } : HTTPClient).KeyReadAll =
      Except.ok [⟨"a", 1⟩, ⟨"a", 1⟩, ⟨"b", 2⟩, ⟨"c", 3⟩] := by
  rw [(c7_keyReadAll_concatenates _).1 rfl (by decide)]
  rfl

theorem foldl_specCombineStep_error (js : List JWK) (e : GoErr) :
    js.foldl specCombineStep (Except.error e) = Except.error e := by
  induction js with
  | nil => rfl
  | cons j rest ih => simp [List.foldl_cons, specCombineStep, ih]

theorem writeAllLoop_eq_foldl (js : List JWK) (m : SimStore) :
    writeAllLoop m js = js.foldl specCombineStep (Except.ok m) := by
  induction js generalizing m with
  | nil => rfl
  | cons j rest ih =>
    cases hw : m.KeyWrite j with
    | mk eo m2 =>
      cases eo with
      | some e => simp [writeAllLoop, List.foldl_cons, specCombineStep, hw,
          foldl_specCombineStep_error]
      | none => simp [writeAllLoop, List.foldl_cons, specCombineStep, hw, ih]

theorem combineStorage_eq_spec (c : HTTPClient) : c.combineStorage = specCombine c := by
  unfold HTTPClient.combineStorage specCombine
  cases c.KeyReadAll with
  | error e => rfl
  | ok js => exact writeAllLoop_eq_foldl js NewMemoryStorage

/-- C8: each export operation of the client equals building the combined
store as the spec words it (fresh empty in-memory store filled from readAll
in sequence, write failures aborting wrapped) and delegating the
corresponding export to that store; the client adds no formatting logic of
its own. -/
theorem c8_exports_delegate (c : HTTPClient) (mo vo : Nat) :
    c.JSON = specExport c ExportKind.json 0 0 ∧
    c.JSONPublic = specExport c ExportKind.jsonPublic 0 0 ∧
    c.JSONPrivate = specExport c ExportKind.jsonPrivate 0 0 ∧
    c.JSONWithOptions mo vo = specExport c ExportKind.jsonWithOptions mo vo ∧
    c.Marshal = specExport c ExportKind.marshal 0 0 ∧
    c.MarshalWithOptions mo vo = specExport c ExportKind.marshalWithOptions mo vo := by
  refine ⟨?_, ?_, ?_, ?_, ?_, ?_⟩ <;>
    simp [HTTPClient.JSON, HTTPClient.JSONPublic, HTTPClient.JSONPrivate,
      HTTPClient.JSONWithOptions, HTTPClient.Marshal, HTTPClient.MarshalWithOptions,
      HTTPClient.exportVia, specExport, combineStorage_eq_spec]

/-- C10 witness: a malformed identifier paired with a pre-built store is
accepted unchanged. -/
theorem c10_witness :
    isAbsoluteURL "not a url" = false ∧
    NewHTTPClient { httpURLs := [("not a url", some ⟨NewMemoryStorage, Except.ok NewMemoryStorage, {}⟩)] } =
      Except.ok ⟨NewMemoryStorage, [("not a url", ⟨NewMemoryStorage, Except.ok NewMemoryStorage, {}⟩)], false, 0, none⟩ :=
  ⟨by decide,
    c10_prebuilt_store_skips_validation _ [("not a url", ⟨NewMemoryStorage, Except.ok NewMemoryStorage, {}⟩)]
      rfl (Or.inr (by simp))⟩

theorem readRemoteLoop_all_miss (keyID : String) (l : List (String × HTTPStorage))
    (h : ∀ p ∈ l, storeNotFound p.2.store keyID = true) :
    readRemoteLoop keyID l = (none, l.map (fun p => Event.readRemote p.1)) := by
  induction l with
  | nil => rfl
  | cons p rest ih =>
    obtain ⟨u, hs⟩ := p
    have hp : storeNotFound hs.store keyID = true := h (u, hs) (List.mem_cons_self _ _)
    have hrest := ih (fun q hq => h q (List.mem_cons_of_mem _ hq))
    unfold storeNotFound at hp
    cases hr : hs.store.KeyRead keyID with
    | ok j => rw [hr] at hp; simp at hp
    | error e =>
      rw [hr] at hp
      simp only [] at hp
      simp [readRemoteLoop, HTTPStorage.KeyRead, hr, hp, hrest]

theorem readRemoteLoop_append_miss (keyID : String) (pre l : List (String × HTTPStorage))
    (h : ∀ p ∈ pre, storeNotFound p.2.store keyID = true) :
    readRemoteLoop keyID (pre ++ l) =
      ((readRemoteLoop keyID l).1,
        pre.map (fun p => Event.readRemote p.1) ++ (readRemoteLoop keyID l).2) := by
  induction pre with
  | nil => simp
  | cons p rest ih =>
    obtain ⟨u, hs⟩ := p
    have hp : storeNotFound hs.store keyID = true := h (u, hs) (List.mem_cons_self _ _)
    have hrest := ih (fun q hq => h q (List.mem_cons_of_mem _ hq))
    unfold storeNotFound at hp
    cases hr : hs.store.KeyRead keyID with
    | ok j => rw [hr] at hp; simp at hp
    | error e =>
      rw [hr] at hp
      simp only [] at hp
      simp [readRemoteLoop, HTTPStorage.KeyRead, hr, hp, hrest]

theorem readRemoteLoop_head_hit (keyID u : String) (h : HTTPStorage)
    (rest : List (String × HTTPStorage)) (j : JWK)
    (hj : h.KeyRead keyID = Except.ok j) :
    readRemoteLoop keyID ((u, h) :: rest) = (some (Except.ok j), [Event.readRemote u]) := by
  simp [readRemoteLoop, hj]

theorem readRemoteLoop_head_abort (keyID u : String) (h : HTTPStorage)
    (rest : List (String × HTTPStorage)) (e : GoErr)
    (he : h.KeyRead keyID = Except.error e) (hnf : e.isKeyNotFound = false) :
    readRemoteLoop keyID ((u, h) :: rest) =
      (some (Except.error (wrapReadHTTP keyID e)), [Event.readRemote u]) := by
  simp [readRemoteLoop, he, hnf]

theorem readRemoteLoop_head_consulted (keyID : String) (p : String × HTTPStorage)
    (rest : List (String × HTTPStorage)) :
    Event.readRemote p.1 ∈ (readRemoteLoop keyID (p :: rest)).2 := by
  obtain ⟨u, h⟩ := p
  cases hr : h.KeyRead keyID with
  | error e =>
    cases hnf : e.isKeyNotFound with
    | true =>
      cases hrec : readRemoteLoop keyID rest with
      | mk r evs => simp [readRemoteLoop, hr, hnf, hrec]
    | false => simp [readRemoteLoop, hr, hnf]
  | ok j => simp [readRemoteLoop, hr]

theorem readRemoteLoop_events_only_reads (keyID : String) (l : List (String × HTTPStorage)) :
    ∀ ev ∈ (readRemoteLoop keyID l).2, ∃ u, ev = Event.readRemote u := by
  induction l with
  | nil => intro ev hev; cases hev
  | cons p rest ih =>
    obtain ⟨u, h⟩ := p
    intro ev hev
    cases hr : h.KeyRead keyID with
    | error e =>
      cases hnf : e.isKeyNotFound with
      | true =>
        cases hrec : readRemoteLoop keyID rest with
        | mk r evs =>
          rw [readRemoteLoop, hr] at hev
          simp only [hnf, if_true, hrec] at hev
          rcases List.mem_cons.mp hev with rfl | hev2
          · exact ⟨u, rfl⟩
          · exact ih ev (by rw [hrec]; exact hev2)
      | false =>
        rw [readRemoteLoop, hr] at hev
        simp only [hnf] at hev
        rcases List.mem_cons.mp hev with rfl | hev2
        · exact ⟨u, rfl⟩
        · cases hev2
    | ok j =>
      rw [readRemoteLoop, hr] at hev
      rcases List.mem_cons.mp hev with rfl | hev2
      · exact ⟨u, rfl⟩
      · cases hev2

theorem readGivenStep_miss (c : HTTPClient) (keyID : String)
    (h : storeNotFound c.given keyID = true) : readGivenStep c keyID = none := by
  unfold storeNotFound at h
  cases hr : c.given.KeyRead keyID with
  | ok j => rw [hr] at h; simp at h
  | error e =>
    rw [hr] at h
    simp only [] at h
    simp [readGivenStep, hr, h]

theorem keyRead_all_miss (c : HTTPClient) (ctx : Ctx) (keyID : String)
    (hg : storeNotFound c.given keyID = true)
    (hr : ∀ p ∈ c.httpURLs, storeNotFound p.2.store keyID = true) :
    c.KeyRead ctx keyID =
      ⟨(refreshPhase c ctx keyID).1,
        missEvents c ++ (refreshPhase c ctx keyID).2.1,
        (refreshPhase c ctx keyID).2.2⟩ := by
  have hloop := readRemoteLoop_all_miss keyID c.httpURLs hr
  have hgs := readGivenStep_miss c keyID hg
  cases hph : refreshPhase c ctx keyID with
  | mk res rest =>
    obtain ⟨evs2, c2⟩ := rest
    unfold HTTPClient.KeyRead missEvents
    cases hp : c.prioritizeHTTP <;> simp [hp, hloop, hgs, hph]

theorem readRemoteLoop_first_hit (keyID : String) (l : List (String × HTTPStorage))
    (hwf : ∀ p ∈ l, p.2.store.readFail = none)
    (hex : ∃ p ∈ l, (p.2.store.keys.find? (fun j => j.kid == keyID)).isSome = true) :
    ∃ j p, p ∈ l ∧ p.2.store.keys.find? (fun j2 => j2.kid == keyID) = some j ∧
      (readRemoteLoop keyID l).1 = some (Except.ok j) := by
  induction l with
  | nil =>
    obtain ⟨p, hp, _⟩ := hex
    cases hp
  | cons q rest ih =>
    obtain ⟨u, hs⟩ := q
    have hq : hs.store.readFail = none := hwf _ (List.mem_cons_self _ _)
    cases hfind : hs.store.keys.find? (fun j => j.kid == keyID) with
    | some j =>
      have hread : hs.KeyRead keyID = Except.ok j := by
        simp [HTTPStorage.KeyRead, SimStore.KeyRead, hq, hfind]
      refine ⟨j, (u, hs), List.mem_cons_self _ _, hfind, ?_⟩
      rw [readRemoteLoop_head_hit keyID u hs rest j hread]
    | none =>
      have hread : hs.KeyRead keyID = Except.error (errKeyNotFoundFor keyID) := by
        simp [HTTPStorage.KeyRead, SimStore.KeyRead, hq, hfind]
      have hex2 : ∃ p ∈ rest, (p.2.store.keys.find? (fun j => j.kid == keyID)).isSome = true := by
        obtain ⟨p, hp, hps⟩ := hex
        rcases List.mem_cons.mp hp with rfl | hrest2
        · simp only [hfind] at hps
          cases hps
        · exact ⟨p, hrest2, hps⟩
      obtain ⟨j, p, hpmem, hpfind, hpr⟩ :=
        ih (fun q hq2 => hwf q (List.mem_cons_of_mem _ hq2)) hex2
      refine ⟨j, p, List.mem_cons_of_mem _ hpmem, hpfind, ?_⟩
      cases hrec : readRemoteLoop keyID rest with
      | mk r evs =>
        rw [hrec] at hpr
        simp [readRemoteLoop, hread, errKeyNotFoundFor, hrec, hpr]

/-- C2: for a client whose sources read without scripted failures and whose
given store and some remote source both hold the key ID: with remote
priority disabled KeyRead returns the given store's copy; with remote
priority enabled it returns a remote source's copy and never consults the
given store. -/
theorem c2_priority_selects_source (c : HTTPClient) (ctx : Ctx) (keyID : String)
    (hgwf : c.given.readFail = none)
    (hrwf : ∀ p ∈ c.httpURLs, p.2.store.readFail = none)
    (hgin : (c.given.keys.find? (fun j => j.kid == keyID)).isSome = true)
    (hrin : ∃ p ∈ c.httpURLs, (p.2.store.keys.find? (fun j => j.kid == keyID)).isSome = true) :
    (c.prioritizeHTTP = false →
      ∃ j, c.given.keys.find? (fun j2 => j2.kid == keyID) = some j ∧
        (c.KeyRead ctx keyID).result = Except.ok j) ∧
    (c.prioritizeHTTP = true →
      (∃ j p, p ∈ c.httpURLs ∧ p.2.store.keys.find? (fun j2 => j2.kid == keyID) = some j ∧
        (c.KeyRead ctx keyID).result = Except.ok j) ∧
      Event.readGiven ∉ (c.KeyRead ctx keyID).events) := by
  constructor
  · intro hp
    cases hfind : c.given.keys.find? (fun j => j.kid == keyID) with
    | none =>
      rw [hfind] at hgin
      cases hgin
    | some j =>
      have hgs : readGivenStep c keyID = some (Except.ok j) := by
        simp [readGivenStep, SimStore.KeyRead, hgwf, hfind]
      refine ⟨j, rfl, ?_⟩
      simp [HTTPClient.KeyRead, hp, hgs]
  · intro hp
    obtain ⟨j, p, hpmem, hpfind, hpr⟩ := readRemoteLoop_first_hit keyID c.httpURLs hrwf hrin
    cases hrec : readRemoteLoop keyID c.httpURLs with
    | mk r evs =>
      rw [hrec] at hpr
      simp only at hpr
      subst hpr
      constructor
      · exact ⟨j, p, hpmem, hpfind, by simp [HTTPClient.KeyRead, hp, hrec]⟩
      · have hevs := readRemoteLoop_events_only_reads keyID c.httpURLs
        rw [hrec] at hevs
        intro hmem
        have : Event.readGiven ∈ evs := by
          have hres : (c.KeyRead ctx keyID).events = evs := by
            simp [HTTPClient.KeyRead, hp, hrec]
          rw [hres] at hmem
          exact hmem
        obtain ⟨v, hv⟩ := hevs Event.readGiven this
        cases hv

/-- C2 witness: with remote priority enabled and the ID in both stores, the
remote copy is returned and the given store is never consulted. -/
theorem c2_witness :
    (∃ j p,
      p ∈ [("r1", (⟨{ keys := [⟨"a", 2⟩] }, Except.ok NewMemoryStorage, {}⟩ : HTTPStorage))] ∧
      p.2.store.keys.find? (fun j2 => j2.kid == "a") = some j ∧
      (({ given := { keys := [⟨"a", 1⟩] }
          httpURLs := [("r1", ⟨{ keys := [⟨"a", 2⟩] }, Except.ok NewMemoryStorage, {}⟩)]
          prioritizeHTTP := true
          rateLimitWaitMax := 0
          refreshUnknownKID := none } : HTTPClient).KeyRead Ctx.background "a").result =
        Except.ok j) ∧
    Event.readGiven ∉
      (({ given := { keys := [⟨"a", 1⟩] }
          httpURLs := [("r1", ⟨{ keys := [⟨"a", 2⟩] }, Except.ok NewMemoryStorage, {}⟩)]
          prioritizeHTTP := true
          rateLimitWaitMax := 0
          refreshUnknownKID := none } : HTTPClient).KeyRead Ctx.background "a").events :=
  (c2_priority_selects_source
    { given := { keys := [⟨"a", 1⟩] }
      httpURLs := [("r1", ⟨{ keys := [⟨"a", 2⟩] }, Except.ok NewMemoryStorage, {}⟩)]
      prioritizeHTTP := true
      rateLimitWaitMax := 0
      refreshUnknownKID := none }
    Ctx.background "a" rfl (by decide) (by decide) (by decide)).2 rfl

theorem refreshLoop_all_miss (keyID : String) (l : List (String × HTTPStorage))
    (h : ∀ p ∈ l, remoteRefreshMisses p keyID = true) :
    refreshLoop keyID l = (none, refreshMissEvents keyID l, l.map refreshUpd) := by
  induction l with
  | nil => rfl
  | cons q rest ih =>
    obtain ⟨u, hs⟩ := q
    have hq : remoteRefreshMisses (u, hs) keyID = true := h _ (List.mem_cons_self _ _)
    have hrest := ih (fun p hp => h p (List.mem_cons_of_mem _ hp))
    cases hres : hs.refreshResult with
    | error e =>
      simp [refreshLoop, HTTPStorage.refresh, hres, hrest, refreshMissEvents, refreshUpd]
    | ok s2 =>
      simp only [remoteRefreshMisses, hres] at hq
      rw [Bool.and_eq_true] at hq
      obtain ⟨hrf, hall⟩ := hq
      have hrf2 : s2.readFail = none := Option.isNone_iff_eq_none.mp hrf
      have hfind : s2.keys.find? (fun j => j.kid == keyID) = none := by
        rw [List.find?_eq_none]
        intro x hx hpx
        have hb := List.all_eq_true.mp hall x hx
        simp [hpx] at hb
      simp [refreshLoop, HTTPStorage.refresh, hres, HTTPStorage.KeyRead, SimStore.KeyRead,
        hrf2, hfind, errKeyNotFoundFor, hrest, refreshMissEvents, refreshUpd]

theorem refreshLoop_append_miss (keyID : String) (pre l : List (String × HTTPStorage))
    (h : ∀ p ∈ pre, remoteRefreshMisses p keyID = true) :
    refreshLoop keyID (pre ++ l) =
      ((refreshLoop keyID l).1,
       refreshMissEvents keyID pre ++ (refreshLoop keyID l).2.1,
       pre.map refreshUpd ++ (refreshLoop keyID l).2.2) := by
  induction pre with
  | nil => simp [refreshMissEvents]
  | cons q rest ih =>
    obtain ⟨u, hs⟩ := q
    have hq : remoteRefreshMisses (u, hs) keyID = true := h _ (List.mem_cons_self _ _)
    have hrest := ih (fun p hp => h p (List.mem_cons_of_mem _ hp))
    cases hres : hs.refreshResult with
    | error e =>
      simp [refreshLoop, HTTPStorage.refresh, hres, hrest, refreshMissEvents, refreshUpd]
    | ok s2 =>
      simp only [remoteRefreshMisses, hres] at hq
      rw [Bool.and_eq_true] at hq
      obtain ⟨hrf, hall⟩ := hq
      have hrf2 : s2.readFail = none := Option.isNone_iff_eq_none.mp hrf
      have hfind : s2.keys.find? (fun j => j.kid == keyID) = none := by
        rw [List.find?_eq_none]
        intro x hx hpx
        have hb := List.all_eq_true.mp hall x hx
        simp [hpx] at hb
      simp [refreshLoop, HTTPStorage.refresh, hres, HTTPStorage.KeyRead, SimStore.KeyRead,
        hrf2, hfind, errKeyNotFoundFor, hrest, refreshMissEvents, refreshUpd]

theorem refreshLoop_head_hit (keyID u : String) (h : HTTPStorage)
    (rest : List (String × HTTPStorage)) (s2 : SimStore) (j : JWK)
    (hres : h.refreshResult = Except.ok s2)
    (hrf : s2.readFail = none)
    (hfind : s2.keys.find? (fun x => x.kid == keyID) = some j) :
    refreshLoop keyID ((u, h) :: rest) =
      (some (Except.ok j), [Event.refreshed u true, Event.readRemote u],
       (u, { h with store := s2 }) :: rest) := by
  simp [refreshLoop, HTTPStorage.refresh, hres, HTTPStorage.KeyRead, SimStore.KeyRead,
    hrf, hfind]

theorem refreshLoop_head_readAbort (keyID u : String) (h : HTTPStorage)
    (rest : List (String × HTTPStorage)) (s2 : SimStore) (e : GoErr)
    (hres : h.refreshResult = Except.ok s2)
    (hread : s2.KeyRead keyID = Except.error e)
    (hnf : e.isKeyNotFound = false) :
    refreshLoop keyID ((u, h) :: rest) =
      (some (Except.error (wrapReadHTTP keyID e)),
       [Event.refreshed u true, Event.readRemote u],
       (u, { h with store := s2 }) :: rest) := by
  simp [refreshLoop, HTTPStorage.refresh, hres, HTTPStorage.KeyRead, hread, hnf]

theorem refreshMissEvents_count (keyID u : String) (l : List (String × HTTPStorage)) :
    (refreshMissEvents keyID l).countP (isRefreshEventFor u) =
      l.countP (fun p => p.1 == u) := by
  induction l with
  | nil => rfl
  | cons q rest ih =>
    obtain ⟨v, hs⟩ := q
    cases hres : hs.refreshResult with
    | error e =>
      by_cases hh : hs.options.refreshErrorHandler = RefreshHandler.noHandler
      · simp [refreshMissEvents, hres, hh, List.countP_append, List.countP_cons,
          isRefreshEventFor, ih]
      · simp [refreshMissEvents, hres, hh, List.countP_append, List.countP_cons,
          isRefreshEventFor, ih]
    | ok ks =>
      simp [refreshMissEvents, hres, List.countP_append, List.countP_cons,
        isRefreshEventFor, ih]

theorem refreshMissEvents_handler_mem (keyID : String) (l : List (String × HTTPStorage))
    (u : String) (h : HTTPStorage) (hmem : (u, h) ∈ l) (e : GoErr)
    (he : h.refreshResult = Except.error e)
    (hh : h.options.refreshErrorHandler ≠ RefreshHandler.noHandler) :
    Event.handlerInvoked u h.options.refreshErrorHandler ∈ refreshMissEvents keyID l := by
  induction l with
  | nil => cases hmem
  | cons q rest ih =>
    rcases List.mem_cons.mp hmem with heq | hmem2
    · rw [← heq]
      simp [refreshMissEvents, he, hh]
    · obtain ⟨v, hv⟩ := q
      simp only [refreshMissEvents]
      exact List.mem_append_right _ (ih hmem2)

theorem refreshMissEvents_refreshed_mem (keyID : String) (l : List (String × HTTPStorage))
    (p : String × HTTPStorage) (hmem : p ∈ l) :
    Event.refreshed p.1 (refreshedOk p) ∈ refreshMissEvents keyID l := by
  induction l with
  | nil => cases hmem
  | cons q rest ih =>
    rcases List.mem_cons.mp hmem with heq | hmem2
    · rw [heq]
      obtain ⟨v, hv⟩ := q
      cases hres : hv.refreshResult with
      | error e =>
        by_cases hh : hv.options.refreshErrorHandler = RefreshHandler.noHandler
        · simp [refreshMissEvents, hres, hh, refreshedOk]
        · simp [refreshMissEvents, hres, hh, refreshedOk]
      | ok ks => simp [refreshMissEvents, hres, refreshedOk]
    · obtain ⟨v, hv⟩ := q
      simp only [refreshMissEvents]
      exact List.mem_append_right _ (ih hmem2)

theorem missEvents_no_refresh (c : HTTPClient) (u : String) (b : Bool) :
    Event.refreshed u b ∉ missEvents c := by
  unfold missEvents
  cases c.prioritizeHTTP <;> simp

theorem missEvents_no_limiterWait (c : HTTPClient) :
    Event.limiterWait ∉ missEvents c := by
  unfold missEvents
  cases c.prioritizeHTTP <;> simp

theorem missEvents_countP_refresh (c : HTTPClient) (u : String) :
    (missEvents c).countP (isRefreshEventFor u) = 0 := by
  rw [List.countP_eq_zero]
  intro ev hmem
  unfold missEvents at hmem
  cases hp : c.prioritizeHTTP <;> rw [hp] at hmem <;> simp at hmem
  · rcases hmem with rfl | ⟨q, _, rfl⟩ <;> simp [isRefreshEventFor]
  · rcases hmem with ⟨q, _, rfl⟩ | rfl <;> simp [isRefreshEventFor]

theorem keyRead_noRefresh (c : HTTPClient) (ctx : Ctx) (keyID : String)
    (h : c.refreshUnknownKID = none) :
    (c.KeyRead ctx keyID).client = c ∧
    ∀ ev ∈ (c.KeyRead ctx keyID).events,
      ev = Event.readGiven ∨ ∃ u, ev = Event.readRemote u := by
  have hph : refreshPhase c ctx keyID = (.error (errKeyNotFoundFor keyID), [], c) := by
    simp [refreshPhase, h]
  cases hl : readRemoteLoop keyID c.httpURLs with
  | mk r evs =>
    have hevs : ∀ ev ∈ evs, ∃ u, ev = Event.readRemote u := by
      have hall := readRemoteLoop_events_only_reads keyID c.httpURLs
      rw [hl] at hall
      exact hall
    cases hp : c.prioritizeHTTP
    · cases hgs : readGivenStep c keyID with
      | some res =>
        refine ⟨by simp [HTTPClient.KeyRead, hp, hgs], ?_⟩
        intro ev hev
        simp [HTTPClient.KeyRead, hp, hgs] at hev
        exact Or.inl hev
      | none =>
        cases r with
        | some res =>
          refine ⟨by simp [HTTPClient.KeyRead, hp, hgs, hl], ?_⟩
          intro ev hev
          simp [HTTPClient.KeyRead, hp, hgs, hl] at hev
          rcases hev with rfl | hev2
          · exact Or.inl rfl
          · exact Or.inr (hevs ev hev2)
        | none =>
          refine ⟨by simp [HTTPClient.KeyRead, hp, hgs, hl, hph], ?_⟩
          intro ev hev
          simp [HTTPClient.KeyRead, hp, hgs, hl, hph] at hev
          rcases hev with rfl | hev2
          · exact Or.inl rfl
          · exact Or.inr (hevs ev hev2)
    · cases r with
      | some res =>
        refine ⟨by simp [HTTPClient.KeyRead, hp, hl], ?_⟩
        intro ev hev
        simp [HTTPClient.KeyRead, hp, hl] at hev
        exact Or.inr (hevs ev hev)
      | none =>
        cases hgs : readGivenStep c keyID with
        | some res =>
          refine ⟨by simp [HTTPClient.KeyRead, hp, hl, hgs], ?_⟩
          intro ev hev
          simp [HTTPClient.KeyRead, hp, hl, hgs] at hev
          rcases hev with hev2 | rfl
          · exact Or.inr (hevs ev hev2)
          · exact Or.inl rfl
        | none =>
          refine ⟨by simp [HTTPClient.KeyRead, hp, hl, hgs, hph], ?_⟩
          intro ev hev
          simp [HTTPClient.KeyRead, hp, hl, hgs, hph] at hev
          rcases hev with hev2 | rfl
          · exact Or.inr (hevs ev hev2)
          · exact Or.inl rfl

/-- C3: during KeyRead a not-found failure from a consulted source is
swallowed and the search continues to the next source; any other failure
from any consulted source — a remote source in the pre-refresh loop, the
given store under either priority order, or the post-refresh re-read of a
freshly refreshed source — aborts the lookup immediately with an error
wrapped with the key ID that does not match ErrKeyNotFound; and when no
source (the refresh path included) resolves the ID, KeyRead returns a
not-found error that carries the key ID and matches ErrKeyNotFound. -/
theorem c3_notfound_tolerance (c : HTTPClient) (ctx : Ctx) (keyID : String) :
    (∀ pre p post, c.httpURLs = pre ++ p :: post →
      (c.prioritizeHTTP = true ∨ storeNotFound c.given keyID = true) →
      (∀ q ∈ pre, storeNotFound q.2.store keyID = true) →
      Event.readRemote p.1 ∈ (c.KeyRead ctx keyID).events) ∧
    (∀ pre u h post e, c.httpURLs = pre ++ (u, h) :: post →
      (c.prioritizeHTTP = true ∨ storeNotFound c.given keyID = true) →
      (∀ q ∈ pre, storeNotFound q.2.store keyID = true) →
      h.KeyRead keyID = Except.error e → e.isKeyNotFound = false →
      (c.KeyRead ctx keyID).result = Except.error (wrapReadHTTP keyID e) ∧
      (wrapReadHTTP keyID e).isKeyNotFound = false ∧
      (wrapReadHTTP keyID e).msg =
        ("failed to find JWT key with ID " ++ quoteGo keyID ++
          " in HTTP storage due to error: ") ++ e.msg ∧
      (c.KeyRead ctx keyID).events =
        (if c.prioritizeHTTP then [] else [Event.readGiven]) ++
          (pre.map (fun q => Event.readRemote q.1) ++ [Event.readRemote u])) ∧
    (storeNotFound c.given keyID = true →
      (∀ p ∈ c.httpURLs, storeNotFound p.2.store keyID = true) →
      c.refreshUnknownKID = none →
      (c.KeyRead ctx keyID).result = Except.error (errKeyNotFoundFor keyID) ∧
      (errKeyNotFoundFor keyID).isKeyNotFound = true ∧
      (errKeyNotFoundFor keyID).msg = ErrKeyNotFound.msg ++ " " ++ quoteGo keyID) ∧
    (∀ lim, storeNotFound c.given keyID = true →
      (∀ p ∈ c.httpURLs, storeNotFound p.2.store keyID = true) →
      c.refreshUnknownKID = some lim →
      lim.wait (effectiveWaitCtx c ctx) = Except.ok () →
      (∀ p ∈ c.httpURLs, remoteRefreshMisses p keyID = true) →
      (c.KeyRead ctx keyID).result = Except.error (errKeyNotFoundFor keyID)) ∧
    (∀ e, c.given.KeyRead keyID = Except.error e → e.isKeyNotFound = false →
      (wrapReadGiven keyID e).isKeyNotFound = false ∧
      (wrapReadGiven keyID e).msg =
        ("failed to find JWT key with ID " ++ quoteGo keyID ++
          " in given storage due to error: ") ++ e.msg ∧
      (c.prioritizeHTTP = false →
        (c.KeyRead ctx keyID).result = Except.error (wrapReadGiven keyID e) ∧
        (c.KeyRead ctx keyID).events = [Event.readGiven]) ∧
      (c.prioritizeHTTP = true →
        (∀ p ∈ c.httpURLs, storeNotFound p.2.store keyID = true) →
        (c.KeyRead ctx keyID).result = Except.error (wrapReadGiven keyID e) ∧
        (c.KeyRead ctx keyID).events =
          c.httpURLs.map (fun p => Event.readRemote p.1) ++ [Event.readGiven])) ∧
    (∀ lim pre u h post s2 e, c.refreshUnknownKID = some lim →
      storeNotFound c.given keyID = true →
      (∀ p ∈ c.httpURLs, storeNotFound p.2.store keyID = true) →
      lim.wait (effectiveWaitCtx c ctx) = Except.ok () →
      c.httpURLs = pre ++ (u, h) :: post →
      (∀ p ∈ pre, remoteRefreshMisses p keyID = true) →
      h.refreshResult = Except.ok s2 →
      s2.KeyRead keyID = Except.error e →
      e.isKeyNotFound = false →
      (c.KeyRead ctx keyID).result = Except.error (wrapReadHTTP keyID e) ∧
      (wrapReadHTTP keyID e).isKeyNotFound = false ∧
      (c.KeyRead ctx keyID).events =
        missEvents c ++ [Event.limiterWait] ++ refreshMissEvents keyID pre ++
          [Event.refreshed u true, Event.readRemote u] ∧
      (c.KeyRead ctx keyID).client =
        { c with httpURLs :=
            pre.map refreshUpd ++ (u, { h with store := s2 }) :: post }) := by
  refine ⟨?_, ?_, ?_, ?_, ?_, ?_⟩
  · intro pre p post hsplit hgiven hpre
    have hhead := readRemoteLoop_head_consulted keyID p post
    have hloop := readRemoteLoop_append_miss keyID pre (p :: post) hpre
    rw [← hsplit] at hloop
    have hmem : Event.readRemote p.1 ∈ (readRemoteLoop keyID c.httpURLs).2 := by
      rw [hloop]
      exact List.mem_append_right _ hhead
    cases hl : readRemoteLoop keyID c.httpURLs with
    | mk r evs =>
      rw [hl] at hmem
      by_cases hp : c.prioritizeHTTP = true
      · cases r with
        | some res => simp [HTTPClient.KeyRead, hp, hl, hmem]
        | none =>
          cases hgs : readGivenStep c keyID with
          | some res => simp [HTTPClient.KeyRead, hp, hl, hgs, hmem]
          | none =>
            cases hph : refreshPhase c ctx keyID with
            | mk res rest2 =>
              obtain ⟨evs2, c2⟩ := rest2
              simp [HTTPClient.KeyRead, hp, hl, hgs, hph, hmem]
      · have hpf : c.prioritizeHTTP = false := by
          cases hval : c.prioritizeHTTP
          · rfl
          · exact absurd hval hp
        have hg : storeNotFound c.given keyID = true := by
          rcases hgiven with hptrue | hg2
          · exact absurd hptrue hp
          · exact hg2
        have hgs := readGivenStep_miss c keyID hg
        cases r with
        | some res => simp [HTTPClient.KeyRead, hpf, hgs, hl, hmem]
        | none =>
          cases hph : refreshPhase c ctx keyID with
          | mk res rest2 =>
            obtain ⟨evs2, c2⟩ := rest2
            simp [HTTPClient.KeyRead, hpf, hgs, hl, hph, hmem]
  · intro pre u h post e hsplit hgiven hpre he hnf
    have habort := readRemoteLoop_head_abort keyID u h post e he hnf
    have hloop2 : readRemoteLoop keyID c.httpURLs =
        (some (Except.error (wrapReadHTTP keyID e)),
          pre.map (fun q => Event.readRemote q.1) ++ [Event.readRemote u]) := by
      rw [hsplit, readRemoteLoop_append_miss keyID pre ((u, h) :: post) hpre, habort]
    have hwrapnf : (wrapReadHTTP keyID e).isKeyNotFound = false := by
      simp [wrapReadHTTP, GoErr.wrap, hnf]
    by_cases hp : c.prioritizeHTTP = true
    · exact ⟨by simp [HTTPClient.KeyRead, hp, hloop2], hwrapnf, rfl,
        by simp [HTTPClient.KeyRead, hp, hloop2]⟩
    · have hpf : c.prioritizeHTTP = false := by
        cases hval : c.prioritizeHTTP
        · rfl
        · exact absurd hval hp
      have hg : storeNotFound c.given keyID = true := by
        rcases hgiven with hptrue | hg2
        · exact absurd hptrue hp
        · exact hg2
      have hgs := readGivenStep_miss c keyID hg
      exact ⟨by simp [HTTPClient.KeyRead, hpf, hgs, hloop2], hwrapnf, rfl,
        by simp [HTTPClient.KeyRead, hpf, hgs, hloop2]⟩
  · intro hg hr hnone
    have hkr := keyRead_all_miss c ctx keyID hg hr
    have hph : refreshPhase c ctx keyID = (.error (errKeyNotFoundFor keyID), [], c) := by
      simp [refreshPhase, hnone]
    rw [hph] at hkr
    exact ⟨by rw [hkr], rfl, rfl⟩
  · intro lim hg hr hsome hwait hmiss
    have hkr := keyRead_all_miss c ctx keyID hg hr
    have hph : refreshPhase c ctx keyID =
        (.error (errKeyNotFoundFor keyID),
          Event.limiterWait :: refreshMissEvents keyID c.httpURLs,
          { c with httpURLs := c.httpURLs.map refreshUpd }) := by
      simp [refreshPhase, hsome, hwait, refreshLoop_all_miss keyID c.httpURLs hmiss]
    rw [hph] at hkr
    rw [hkr]
  · intro e he hnf
    have hgs : readGivenStep c keyID = some (Except.error (wrapReadGiven keyID e)) := by
      simp [readGivenStep, he, hnf]
    refine ⟨by simp [wrapReadGiven, GoErr.wrap, hnf], rfl, ?_, ?_⟩
    · intro hpf
      exact ⟨by simp [HTTPClient.KeyRead, hpf, hgs], by simp [HTTPClient.KeyRead, hpf, hgs]⟩
    · intro hp hr
      have hloop := readRemoteLoop_all_miss keyID c.httpURLs hr
      exact ⟨by simp [HTTPClient.KeyRead, hp, hloop, hgs],
        by simp [HTTPClient.KeyRead, hp, hloop, hgs]⟩
  · intro lim pre u h post s2 e hsome hg hr hwait hsplit hpremiss hres hread hnf
    have hkr := keyRead_all_miss c ctx keyID hg hr
    have habort := refreshLoop_head_readAbort keyID u h post s2 e hres hread hnf
    have hloop : refreshLoop keyID c.httpURLs =
        (some (Except.error (wrapReadHTTP keyID e)),
          refreshMissEvents keyID pre ++ [Event.refreshed u true, Event.readRemote u],
          pre.map refreshUpd ++ (u, { h with store := s2 }) :: post) := by
      rw [hsplit, refreshLoop_append_miss keyID pre ((u, h) :: post) hpremiss, habort]
    have hph : refreshPhase c ctx keyID =
        (Except.error (wrapReadHTTP keyID e),
          Event.limiterWait ::
            (refreshMissEvents keyID pre ++ [Event.refreshed u true, Event.readRemote u]),
          { c with httpURLs :=
              pre.map refreshUpd ++ (u, { h with store := s2 }) :: post }) := by
      simp [refreshPhase, hsome, hwait, hloop]
    rw [hph] at hkr
    refine ⟨by rw [hkr], by simp [wrapReadHTTP, GoErr.wrap, hnf], ?_, by rw [hkr]⟩
    rw [hkr]
    simp

/-- A client whose only remote source fails reads with a non-not-found
error. -/
def c3WR : HTTPClient :=
  ⟨{ keys := [] },
    [("r1", ⟨{ keys := [], readFail := some ⟨false, false, "boom"⟩ },
      Except.ok NewMemoryStorage, {}⟩)],
    false, 0, none⟩

/-- A client whose given store fails reads with a non-not-found error. -/
def c3WG : HTTPClient :=
  ⟨{ keys := [], readFail := some ⟨false, false, "boom"⟩ }, [], false, 0, none⟩

/-- A client whose remote source misses before refresh and whose refreshed
state fails reads with a non-not-found error. -/
def c3WF : HTTPClient :=
  ⟨{ keys := [] },
    [("r1", ⟨{ keys := [] },
      Except.ok { keys := [], readFail := some ⟨false, false, "boom"⟩ }, {}⟩)],
    false, timeMinuteNs, some (rateNewLimiter (5 * timeMinuteNs) 1)⟩

/-- C3 witness: each abort site observed concretely — a remote source
failing with a non-not-found error aborts the lookup after the given
store's not-found was swallowed; a given store failing likewise aborts
before any remote source is consulted; and a freshly refreshed source
whose re-read fails likewise aborts the refresh pass, all with the error
wrapped with the key ID. -/
theorem c3_witness :
    (c3WR.KeyRead Ctx.background "x").result =
      Except.error (wrapReadHTTP "x" ⟨false, false, "boom"⟩) ∧
    (c3WR.KeyRead Ctx.background "x").events =
      [Event.readGiven, Event.readRemote "r1"] ∧
    (c3WG.KeyRead Ctx.background "x").result =
      Except.error (wrapReadGiven "x" ⟨false, false, "boom"⟩) ∧
    (c3WG.KeyRead Ctx.background "x").events = [Event.readGiven] ∧
    (c3WF.KeyRead Ctx.background "x").result =
      Except.error (wrapReadHTTP "x" ⟨false, false, "boom"⟩) := by
  have h1 := (c3_notfound_tolerance c3WR Ctx.background "x").2.1 [] "r1"
    ⟨{ keys := [], readFail := some ⟨false, false, "boom"⟩ }, Except.ok NewMemoryStorage, {}⟩
    [] ⟨false, false, "boom"⟩ rfl (Or.inr (by decide)) (by decide) rfl rfl
  have h2 := (c3_notfound_tolerance c3WG Ctx.background "x").2.2.2.2.1
    ⟨false, false, "boom"⟩ rfl rfl
  have h3 := (c3_notfound_tolerance c3WF Ctx.background "x").2.2.2.2.2
    (rateNewLimiter (5 * timeMinuteNs) 1) [] "r1"
    ⟨{ keys := [] }, Except.ok { keys := [], readFail := some ⟨false, false, "boom"⟩ }, {}⟩
    [] { keys := [], readFail := some ⟨false, false, "boom"⟩ } ⟨false, false, "boom"⟩
    rfl (by decide) (by decide) (by decide) rfl (by decide) rfl rfl rfl
  exact ⟨h1.1, h1.2.2.2.trans (by decide), (h2.2.2.1 rfl).1, (h2.2.2.1 rfl).2, h3.1⟩

/-- C4: an absent rate limiter disables the refresh path entirely; the wait
runs under a context bounded by the configured maximum (zero meaning the
caller's own context); a timed-out or cancelled wait returns the rate-limit
failure wrapping its cause, before any refresh; once admitted, one pass
refreshes each remote source once (counted per source identifier); a single
source's refresh failure invokes that source's refresh-error callback and
iteration continues through the remaining sources; and after a successful
refresh the key is re-read from that source only, returning on first
success with the following sources untouched. -/
theorem c4_refresh_path (c : HTTPClient) (ctx : Ctx) (keyID : String) :
    (c.refreshUnknownKID = none →
      (c.KeyRead ctx keyID).client = c ∧
      Event.limiterWait ∉ (c.KeyRead ctx keyID).events ∧
      (∀ u b, Event.refreshed u b ∉ (c.KeyRead ctx keyID).events)) ∧
    (0 < c.rateLimitWaitMax →
      ∃ d, (effectiveWaitCtx c ctx).deadlineNs = some d ∧ d ≤ c.rateLimitWaitMax) ∧
    (c.rateLimitWaitMax = 0 → effectiveWaitCtx c ctx = ctx) ∧
    (∀ lim, c.refreshUnknownKID = some lim →
      storeNotFound c.given keyID = true →
      (∀ p ∈ c.httpURLs, storeNotFound p.2.store keyID = true) →
      lim.wait (effectiveWaitCtx c ctx) = Except.error errContextDeadlineExceeded →
      (c.KeyRead ctx keyID).result =
        Except.error (wrapLimiterWait errContextDeadlineExceeded) ∧
      (wrapLimiterWait errContextDeadlineExceeded).isKeyNotFound = false ∧
      (wrapLimiterWait errContextDeadlineExceeded).msg =
        "failed to wait for JWK Set refresh rate limiter due to error: " ++
          errContextDeadlineExceeded.msg ∧
      (∀ u b, Event.refreshed u b ∉ (c.KeyRead ctx keyID).events)) ∧
    (∀ lim, c.refreshUnknownKID = some lim →
      storeNotFound c.given keyID = true →
      (∀ p ∈ c.httpURLs, storeNotFound p.2.store keyID = true) →
      lim.wait (effectiveWaitCtx c ctx) = Except.ok () →
      (∀ p ∈ c.httpURLs, remoteRefreshMisses p keyID = true) →
      ∀ u, (c.KeyRead ctx keyID).events.countP (isRefreshEventFor u) =
        c.httpURLs.countP (fun p => p.1 == u)) ∧
    (∀ lim u h, c.refreshUnknownKID = some lim →
      storeNotFound c.given keyID = true →
      (∀ p ∈ c.httpURLs, storeNotFound p.2.store keyID = true) →
      lim.wait (effectiveWaitCtx c ctx) = Except.ok () →
      (∀ p ∈ c.httpURLs, remoteRefreshMisses p keyID = true) →
      (u, h) ∈ c.httpURLs →
      (∃ e, h.refreshResult = Except.error e) →
      h.options.refreshErrorHandler ≠ RefreshHandler.noHandler →
      Event.handlerInvoked u h.options.refreshErrorHandler ∈ (c.KeyRead ctx keyID).events ∧
      (∀ q ∈ c.httpURLs, Event.refreshed q.1 (refreshedOk q) ∈ (c.KeyRead ctx keyID).events)) ∧
    (∀ lim pre u h post s2 j, c.refreshUnknownKID = some lim →
      storeNotFound c.given keyID = true →
      (∀ p ∈ c.httpURLs, storeNotFound p.2.store keyID = true) →
      lim.wait (effectiveWaitCtx c ctx) = Except.ok () →
      c.httpURLs = pre ++ (u, h) :: post →
      (∀ p ∈ pre, remoteRefreshMisses p keyID = true) →
      h.refreshResult = Except.ok s2 →
      s2.readFail = none →
      s2.keys.find? (fun x => x.kid == keyID) = some j →
      (c.KeyRead ctx keyID).result = Except.ok j ∧
      (c.KeyRead ctx keyID).events =
        missEvents c ++ [Event.limiterWait] ++ refreshMissEvents keyID pre ++
          [Event.refreshed u true, Event.readRemote u] ∧
      (c.KeyRead ctx keyID).client =
        { c with httpURLs :=
            pre.map refreshUpd ++ (u, { h with store := s2 }) :: post }) := by
  refine ⟨?_, ?_, ?_, ?_, ?_, ?_, ?_⟩
  · intro hnone
    obtain ⟨hclient, hshape⟩ := keyRead_noRefresh c ctx keyID hnone
    refine ⟨hclient, ?_, ?_⟩
    · intro hmem
      rcases hshape _ hmem with hval | ⟨v, hval⟩ <;> cases hval
    · intro u b hmem
      rcases hshape _ hmem with hval | ⟨v, hval⟩ <;> cases hval
  · intro hpos
    unfold effectiveWaitCtx
    rw [if_pos hpos]
    unfold Ctx.withTimeout
    cases ctx.deadlineNs with
    | none => exact ⟨c.rateLimitWaitMax, rfl, Nat.le_refl _⟩
    | some p => exact ⟨min p c.rateLimitWaitMax, rfl, Nat.min_le_right _ _⟩
  · intro hzero
    unfold effectiveWaitCtx
    rw [hzero]
    rfl
  · intro lim hsome hg hr hwait
    have hkr := keyRead_all_miss c ctx keyID hg hr
    have hph : refreshPhase c ctx keyID =
        (.error (wrapLimiterWait errContextDeadlineExceeded), [Event.limiterWait], c) := by
      simp [refreshPhase, hsome, hwait, wrapLimiterWait]
    rw [hph] at hkr
    refine ⟨by rw [hkr], rfl, rfl, ?_⟩
    intro u b hmem
    have hev : (c.KeyRead ctx keyID).events = missEvents c ++ [Event.limiterWait] := by
      rw [hkr]
    rw [hev] at hmem
    rcases List.mem_append.mp hmem with hmem2 | hmem2
    · exact missEvents_no_refresh c u b hmem2
    · rcases List.mem_cons.mp hmem2 with hval | hval
      · cases hval
      · cases hval
  · intro lim hsome hg hr hwait hmiss u
    have hkr := keyRead_all_miss c ctx keyID hg hr
    have hph : refreshPhase c ctx keyID =
        (.error (errKeyNotFoundFor keyID),
          Event.limiterWait :: refreshMissEvents keyID c.httpURLs,
          { c with httpURLs := c.httpURLs.map refreshUpd }) := by
      simp [refreshPhase, hsome, hwait, refreshLoop_all_miss keyID c.httpURLs hmiss]
    rw [hph] at hkr
    have hev : (c.KeyRead ctx keyID).events =
        missEvents c ++ (Event.limiterWait :: refreshMissEvents keyID c.httpURLs) := by
      rw [hkr]
    rw [hev, List.countP_append, List.countP_cons, missEvents_countP_refresh,
      refreshMissEvents_count]
    simp [isRefreshEventFor]
  · intro lim u h hsome hg hr hwait hmiss hmem hfail hh
    have hkr := keyRead_all_miss c ctx keyID hg hr
    have hph : refreshPhase c ctx keyID =
        (.error (errKeyNotFoundFor keyID),
          Event.limiterWait :: refreshMissEvents keyID c.httpURLs,
          { c with httpURLs := c.httpURLs.map refreshUpd }) := by
      simp [refreshPhase, hsome, hwait, refreshLoop_all_miss keyID c.httpURLs hmiss]
    rw [hph] at hkr
    have hev : (c.KeyRead ctx keyID).events =
        missEvents c ++ (Event.limiterWait :: refreshMissEvents keyID c.httpURLs) := by
      rw [hkr]
    obtain ⟨e, he⟩ := hfail
    constructor
    · rw [hev]
      exact List.mem_append_right _
        (List.mem_cons_of_mem _ (refreshMissEvents_handler_mem keyID c.httpURLs u h hmem e he hh))
    · intro q hq
      rw [hev]
      exact List.mem_append_right _
        (List.mem_cons_of_mem _ (refreshMissEvents_refreshed_mem keyID c.httpURLs q hq))
  · intro lim pre u h post s2 j hsome hg hr hwait hsplit hpremiss hres hrf hfind
    have hkr := keyRead_all_miss c ctx keyID hg hr
    have hhit := refreshLoop_head_hit keyID u h post s2 j hres hrf hfind
    have hloop : refreshLoop keyID c.httpURLs =
        (some (Except.ok j),
          refreshMissEvents keyID pre ++ [Event.refreshed u true, Event.readRemote u],
          pre.map refreshUpd ++ (u, { h with store := s2 }) :: post) := by
      rw [hsplit, refreshLoop_append_miss keyID pre ((u, h) :: post) hpremiss, hhit]
    have hph : refreshPhase c ctx keyID =
        (Except.ok j,
          Event.limiterWait ::
            (refreshMissEvents keyID pre ++ [Event.refreshed u true, Event.readRemote u]),
          { c with httpURLs :=
              pre.map refreshUpd ++ (u, { h with store := s2 }) :: post }) := by
      simp [refreshPhase, hsome, hwait, hloop]
    rw [hph] at hkr
    refine ⟨by rw [hkr], ?_, by rw [hkr]⟩
    rw [hkr]
    simp

/-- C4 witness: a missing key ID admitted through the limiter triggers a
forced refresh of the single remote source, after which the key is found
there. -/
theorem c4_witness :
    (({ given := { keys := [] }
        httpURLs := [("r1", ⟨{ keys := [] }, Except.ok { keys := [⟨"x", 9⟩] }, {}⟩)]
        prioritizeHTTP := false
        rateLimitWaitMax := timeMinuteNs
        refreshUnknownKID := some (rateNewLimiter (5 * timeMinuteNs) 1) } :
        HTTPClient).KeyRead Ctx.background "x").result = Except.ok ⟨"x", 9⟩ :=
  ((c4_refresh_path
    { given := { keys := [] }
      httpURLs := [("r1", ⟨{ keys := [] }, Except.ok { keys := [⟨"x", 9⟩] }, {}⟩)]
      prioritizeHTTP := false
      rateLimitWaitMax := timeMinuteNs
      refreshUnknownKID := some (rateNewLimiter (5 * timeMinuteNs) 1) }
    Ctx.background "x").2.2.2.2.2.2 (rateNewLimiter (5 * timeMinuteNs) 1) []
    "r1" ⟨{ keys := [] }, Except.ok { keys := [⟨"x", 9⟩] }, {}⟩ [] { keys := [⟨"x", 9⟩] }
    ⟨"x", 9⟩ rfl (by decide) (by decide) (by decide) rfl (by decide) rfl rfl (by decide)).1

theorem readRemoteLoop_fst_eq_firstHit (keyID : String) (l : List (String × HTTPStorage))
    (hwf : ∀ p ∈ l, p.2.store.readFail = none) :
    (readRemoteLoop keyID l).1 = (firstHit keyID l).map Except.ok := by
  induction l with
  | nil => rfl
  | cons q rest ih =>
    obtain ⟨u, hs⟩ := q
    have hq : hs.store.readFail = none := hwf _ (List.mem_cons_self _ _)
    have hrest := ih (fun p hp => hwf p (List.mem_cons_of_mem _ hp))
    cases hfind : hs.store.keys.find? (fun j => j.kid == keyID) with
    | some j =>
      have hread : hs.KeyRead keyID = Except.ok j := by
        simp [HTTPStorage.KeyRead, SimStore.KeyRead, hq, hfind]
      rw [readRemoteLoop_head_hit keyID u hs rest j hread]
      simp [firstHit, hfind]
    | none =>
      have hread : hs.KeyRead keyID = Except.error (errKeyNotFoundFor keyID) := by
        simp [HTTPStorage.KeyRead, SimStore.KeyRead, hq, hfind]
      cases hrec : readRemoteLoop keyID rest with
      | mk r evs =>
        rw [hrec] at hrest
        simp [readRemoteLoop, hread, errKeyNotFoundFor, hrec, firstHit, hfind, hrest]

theorem holds_iff_find_isSome (s : SimStore) (keyID : String) :
    s.holds keyID = (s.keys.find? (fun j => j.kid == keyID)).isSome := by
  unfold SimStore.holds
  induction s.keys with
  | nil => rfl
  | cons j rest ih =>
    cases hj : (j.kid == keyID) with
    | true => simp [List.any_cons, hj, List.find?_cons_of_pos]
    | false =>
      rw [List.find?_cons_of_neg _ (by simp [hj])]
      simp [List.any_cons, hj, ih]

theorem holds_false_find_none (s : SimStore) (keyID : String)
    (h : s.holds keyID = false) :
    s.keys.find? (fun j => j.kid == keyID) = none := by
  have hiff := holds_iff_find_isSome s keyID
  rw [h] at hiff
  cases hfind : s.keys.find? (fun j => j.kid == keyID) with
  | none => rfl
  | some j => rw [hfind] at hiff; cases hiff

theorem holds_true_find_some (s : SimStore) (keyID : String)
    (h : s.holds keyID = true) :
    ∃ j, s.keys.find? (fun j2 => j2.kid == keyID) = some j := by
  have hiff := holds_iff_find_isSome s keyID
  rw [h] at hiff
  cases hfind : s.keys.find? (fun j2 => j2.kid == keyID) with
  | none => rw [hfind] at hiff; cases hiff
  | some j => exact ⟨j, rfl⟩

theorem firstHit_perm (keyID : String) (l₁ l₂ : List (String × HTTPStorage))
    (hperm : l₁.Perm l₂) :
    l₁.countP (fun p => p.2.store.holds keyID) ≤ 1 →
      firstHit keyID l₁ = firstHit keyID l₂ := by
  induction hperm with
  | nil => intro _; rfl
  | cons x hperm2 ih =>
    intro huniq
    rename_i la lb
    have hle : List.countP (fun p => p.2.store.holds keyID) la ≤ 1 := by
      rw [List.countP_cons] at huniq
      omega
    cases hfind : x.2.store.keys.find? (fun j => j.kid == keyID) with
    | some j => simp [firstHit, hfind]
    | none =>
      simp only [firstHit, hfind]
      exact ih hle
  | swap x y l =>
    intro huniq
    by_cases hx : x.2.store.holds keyID = true
    · by_cases hy : y.2.store.holds keyID = true
      · exfalso
        rw [List.countP_cons, List.countP_cons] at huniq
        simp [hx, hy] at huniq
      · have hyf : y.2.store.holds keyID = false := by
          cases hval : y.2.store.holds keyID
          · rfl
          · exact absurd hval hy
        have hyn := holds_false_find_none _ _ hyf
        obtain ⟨j, hxj⟩ := holds_true_find_some _ keyID hx
        simp [firstHit, hyn, hxj]
    · have hxf : x.2.store.holds keyID = false := by
        cases hval : x.2.store.holds keyID
        · rfl
        · exact absurd hval hx
      have hxn := holds_false_find_none _ _ hxf
      cases hfy : y.2.store.keys.find? (fun j => j.kid == keyID) with
      | some j => simp [firstHit, hxn, hfy]
      | none => simp [firstHit, hxn, hfy]
  | trans h12 h23 ih12 ih23 =>
    intro huniq
    exact (ih12 huniq).trans (ih23 (by rw [← h12.countP_eq]; exact huniq))

theorem keyRead_result_noRefresh (c : HTTPClient) (ctx : Ctx) (keyID : String)
    (hwf : ∀ p ∈ c.httpURLs, p.2.store.readFail = none)
    (hnone : c.refreshUnknownKID = none) :
    (c.KeyRead ctx keyID).result =
      (if c.prioritizeHTTP then
        match firstHit keyID c.httpURLs with
        | some j => Except.ok j
        | none =>
          match readGivenStep c keyID with
          | some res => res
          | none => Except.error (errKeyNotFoundFor keyID)
      else
        match readGivenStep c keyID with
        | some res => res
        | none =>
          match firstHit keyID c.httpURLs with
          | some j => Except.ok j
          | none => Except.error (errKeyNotFoundFor keyID)) := by
  have hfst := readRemoteLoop_fst_eq_firstHit keyID c.httpURLs hwf
  have hph : refreshPhase c ctx keyID = (.error (errKeyNotFoundFor keyID), [], c) := by
    simp [refreshPhase, hnone]
  cases hl : readRemoteLoop keyID c.httpURLs with
  | mk r evs =>
    rw [hl] at hfst
    simp only at hfst
    cases hp : c.prioritizeHTTP
    · cases hgs : readGivenStep c keyID with
      | some res => simp [HTTPClient.KeyRead, hp, hgs]
      | none =>
        cases hfh : firstHit keyID c.httpURLs with
        | some j =>
          rw [hfh] at hfst
          simp only [Option.map] at hfst
          subst hfst
          simp [HTTPClient.KeyRead, hp, hgs, hl, hfh]
        | none =>
          rw [hfh] at hfst
          simp only [Option.map] at hfst
          subst hfst
          simp [HTTPClient.KeyRead, hp, hgs, hl, hfh, hph]
    · cases hfh : firstHit keyID c.httpURLs with
      | some j =>
        rw [hfh] at hfst
        simp only [Option.map] at hfst
        subst hfst
        simp [HTTPClient.KeyRead, hp, hl, hfh]
      | none =>
        rw [hfh] at hfst
        simp only [Option.map] at hfst
        subst hfst
        cases hgs : readGivenStep c keyID with
        | some res => simp [HTTPClient.KeyRead, hp, hl, hgs, hfh]
        | none => simp [HTTPClient.KeyRead, hp, hl, hgs, hfh, hph]

/-- Two remote sources both holding key ID a under different key values. -/
def c5A : HTTPClient :=
  ⟨NewMemoryStorage,
    [("u1", ⟨{ keys := [⟨"a", 1⟩] }, Except.ok NewMemoryStorage, {}⟩),
     ("u2", ⟨{ keys := [⟨"a", 2⟩] }, Except.ok NewMemoryStorage, {}⟩)],
    false, 0, none⟩

/-- The same client state under the other iteration order of the remote
map. -/
def c5B : HTTPClient :=
  ⟨NewMemoryStorage,
    [("u2", ⟨{ keys := [⟨"a", 2⟩] }, Except.ok NewMemoryStorage, {}⟩),
     ("u1", ⟨{ keys := [⟨"a", 1⟩] }, Except.ok NewMemoryStorage, {}⟩)],
    false, 0, none⟩

/-- C5 counterexample: the remote sources live in a Go map whose iteration
order is unspecified, so two KeyRead calls on the same client state may
iterate the same remote map in different orders; with the same key ID held
by two remote sources under different values, the two orders return
different results, refuting the claim that repeated calls return equal
results. -/
theorem c5_counterexample :
    c5A.given = c5B.given ∧ c5A.prioritizeHTTP = c5B.prioritizeHTTP ∧
    c5A.rateLimitWaitMax = c5B.rateLimitWaitMax ∧
    c5A.refreshUnknownKID = c5B.refreshUnknownKID ∧
    c5A.httpURLs.Perm c5B.httpURLs ∧
    (c5A.KeyRead Ctx.background "a").result = Except.ok ⟨"a", 1⟩ ∧
    (c5B.KeyRead Ctx.background "a").result = Except.ok ⟨"a", 2⟩ ∧
    (c5A.KeyRead Ctx.background "a").result ≠ (c5B.KeyRead Ctx.background "a").result := by
  refine ⟨rfl, rfl, rfl, rfl, ?_, by decide, by decide, by decide⟩
  exact List.Perm.swap _ _ _

/-- C5 amended: within one KeyRead call sources are consulted in one fixed
order (given-then-remote or remote-then-given, remote sources in the order
the runtime iterates the map); with the refresh path disabled a call leaves
the client state unchanged, so an immediately repeated call returns the
identical outcome; and the result is independent of the remote iteration
order whenever at most one remote source holds the key ID — but not in
general, since the map's iteration order is unspecified. -/
theorem c5_amended (c d : HTTPClient) (ctx : Ctx) (keyID : String) :
    (c.refreshUnknownKID = none →
      (c.KeyRead ctx keyID).client = c ∧
      (c.KeyRead ctx keyID).client.KeyRead ctx keyID = c.KeyRead ctx keyID) ∧
    (c.given = d.given → c.prioritizeHTTP = d.prioritizeHTTP →
      c.refreshUnknownKID = none → d.refreshUnknownKID = none →
      c.httpURLs.Perm d.httpURLs →
      (∀ p ∈ c.httpURLs, p.2.store.readFail = none) →
      c.httpURLs.countP (fun p => p.2.store.holds keyID) ≤ 1 →
      (c.KeyRead ctx keyID).result = (d.KeyRead ctx keyID).result) := by
  constructor
  · intro hnone
    have hclient := (keyRead_noRefresh c ctx keyID hnone).1
    exact ⟨hclient, by rw [hclient]⟩
  · intro hgiven hprio hcn hdn hperm hwf huniq
    have hwfd : ∀ p ∈ d.httpURLs, p.2.store.readFail = none := fun p hp =>
      hwf p (hperm.mem_iff.mpr hp)
    have hfh := firstHit_perm keyID c.httpURLs d.httpURLs hperm huniq
    have hgs : readGivenStep d keyID = readGivenStep c keyID := by
      unfold readGivenStep
      rw [hgiven]
    rw [keyRead_result_noRefresh c ctx keyID hwf hcn,
      keyRead_result_noRefresh d ctx keyID hwfd hdn, hgs, hfh, hprio]

/-- One remote source holding key ID a, one empty remote source. -/
def c5W1 : HTTPClient :=
  ⟨NewMemoryStorage,
    [("u1", ⟨{ keys := [⟨"a", 1⟩] }, Except.ok NewMemoryStorage, {}⟩),
     ("u2", ⟨{ keys := [] }, Except.ok NewMemoryStorage, {}⟩)],
    false, 0, none⟩

/-- The same client state under the other iteration order. -/
def c5W2 : HTTPClient :=
  ⟨NewMemoryStorage,
    [("u2", ⟨{ keys := [] }, Except.ok NewMemoryStorage, {}⟩),
     ("u1", ⟨{ keys := [⟨"a", 1⟩] }, Except.ok NewMemoryStorage, {}⟩)],
    false, 0, none⟩

/-- C5 witness: with a single remote holder of the key ID the result is the
same under both iteration orders. -/
theorem c5_witness :
    (c5W1.KeyRead Ctx.background "a").result = (c5W2.KeyRead Ctx.background "a").result ∧
    (c5W1.KeyRead Ctx.background "a").result = Except.ok ⟨"a", 1⟩ :=
  ⟨(c5_amended c5W1 c5W2 Ctx.background "a").2 rfl rfl rfl rfl
    (List.Perm.swap _ _ _) (by decide) (by decide), by decide⟩

theorem deleteRemoteLoop_wf (keyID : String) (l : List (String × HTTPStorage))
    (h : ∀ p ∈ l, p.2.store.deleteFail = none) :
    deleteRemoteLoop keyID l =
      (Except.ok (l.any (fun p => p.2.store.holds keyID)), removeFirstRemote keyID l) := by
  induction l with
  | nil => rfl
  | cons q rest ih =>
    obtain ⟨u, hs⟩ := q
    have hq : hs.store.deleteFail = none := h _ (List.mem_cons_self _ _)
    have hrest := ih (fun p hp => h p (List.mem_cons_of_mem _ hp))
    by_cases hh : hs.store.holds keyID = true
    · have hany : hs.store.keys.any (fun j => j.kid == keyID) = true := hh
      simp [deleteRemoteLoop, HTTPStorage.KeyDelete, SimStore.KeyDelete, hq, hany,
        removeFirstRemote, SimStore.holds, hh, removeKid, List.any_cons]
    · have hhf : hs.store.holds keyID = false := by
        cases hval : hs.store.holds keyID
        · rfl
        · exact absurd hval hh
      have hany : hs.store.keys.any (fun j => j.kid == keyID) = false := hhf
      simp [deleteRemoteLoop, HTTPStorage.KeyDelete, SimStore.KeyDelete, hq, hany,
        removeFirstRemote, SimStore.holds, hhf, hrest, List.any_cons]

theorem deleteRemoteLoop_skip_miss (keyID : String) (pre l : List (String × HTTPStorage))
    (h : ∀ q ∈ pre, q.2.store.deleteFail = none ∧ q.2.store.holds keyID = false) :
    deleteRemoteLoop keyID (pre ++ l) =
      ((deleteRemoteLoop keyID l).1, pre ++ (deleteRemoteLoop keyID l).2) := by
  induction pre with
  | nil => simp
  | cons q rest ih =>
    obtain ⟨u, hs⟩ := q
    obtain ⟨hdf0, hhf0⟩ := h _ (List.mem_cons_self _ _)
    have hdf : hs.store.deleteFail = none := hdf0
    have hany : hs.store.keys.any (fun j => j.kid == keyID) = false := hhf0
    have hrest := ih (fun p hp => h p (List.mem_cons_of_mem _ hp))
    simp [deleteRemoteLoop, HTTPStorage.KeyDelete, SimStore.KeyDelete, hdf, hany, hrest]

theorem deleteRemoteLoop_head_abort (keyID u : String) (h : HTTPStorage)
    (rest : List (String × HTTPStorage)) (e : GoErr)
    (he : h.store.deleteFail = some e) (hnf : e.isKeyNotFound = false) :
    (deleteRemoteLoop keyID ((u, h) :: rest)).1 = Except.error (wrapDeleteHTTP keyID e) := by
  simp [deleteRemoteLoop, HTTPStorage.KeyDelete, SimStore.KeyDelete, he, hnf]

theorem keyDelete_wf (c : HTTPClient) (keyID : String)
    (hg : c.given.deleteFail = none)
    (hr : ∀ p ∈ c.httpURLs, p.2.store.deleteFail = none) :
    c.KeyDelete keyID =
      (Except.ok (c.given.holds keyID || c.httpURLs.any (fun p => p.2.store.holds keyID)),
       specDeleteClient c keyID) := by
  by_cases hh : c.given.holds keyID = true
  · have hany : c.given.keys.any (fun j => j.kid == keyID) = true := hh
    simp [HTTPClient.KeyDelete, SimStore.KeyDelete, hg, hany, specDeleteClient,
      SimStore.holds, hh, removeKid]
  · have hhf : c.given.holds keyID = false := by
      cases hval : c.given.holds keyID
      · rfl
      · exact absurd hval hh
    have hany : c.given.keys.any (fun j => j.kid == keyID) = false := hhf
    have hloop := deleteRemoteLoop_wf keyID c.httpURLs hr
    simp [HTTPClient.KeyDelete, SimStore.KeyDelete, hg, hany, specDeleteClient,
      hhf, hloop]

theorem removeKid_not_holds (s : SimStore) (keyID : String) :
    (removeKid s keyID).holds keyID = false := by
  unfold removeKid SimStore.holds
  rw [List.any_eq_false]
  intro x hx
  have hq := (List.mem_filter.mp hx).2
  simp at hq ⊢
  exact hq

theorem removeFirstRemote_deleteFail (keyID : String) (l : List (String × HTTPStorage))
    (h : ∀ p ∈ l, p.2.store.deleteFail = none) :
    ∀ p ∈ removeFirstRemote keyID l, p.2.store.deleteFail = none := by
  induction l with
  | nil => intro p hp; cases hp
  | cons q rest ih =>
    obtain ⟨u, hs⟩ := q
    intro p hp
    by_cases hh : hs.store.holds keyID = true
    · rw [removeFirstRemote, if_pos hh] at hp
      rcases List.mem_cons.mp hp with rfl | hp2
      · have hd : hs.store.deleteFail = none := h _ (List.mem_cons_self _ _)
        exact hd
      · exact h p (List.mem_cons_of_mem _ hp2)
    · rw [removeFirstRemote, if_neg hh] at hp
      rcases List.mem_cons.mp hp with rfl | hp2
      · exact h _ (List.mem_cons_self _ _)
      · exact ih (fun q2 hq2 => h q2 (List.mem_cons_of_mem _ hq2)) p hp2

theorem removeFirstRemote_no_holder (keyID : String) (l : List (String × HTTPStorage))
    (huniq : l.countP (fun p => p.2.store.holds keyID) ≤ 1) :
    ∀ p ∈ removeFirstRemote keyID l, p.2.store.holds keyID = false := by
  induction l with
  | nil => intro p hp; cases hp
  | cons q rest ih =>
    obtain ⟨u, hs⟩ := q
    intro p hp
    by_cases hh : hs.store.holds keyID = true
    · have hrest0 : rest.countP (fun p => p.2.store.holds keyID) = 0 := by
        rw [List.countP_cons] at huniq
        simp only [hh, if_true] at huniq
        omega
      rw [removeFirstRemote, if_pos hh] at hp
      rcases List.mem_cons.mp hp with rfl | hp2
      · exact removeKid_not_holds hs.store keyID
      · have hz := List.countP_eq_zero.mp hrest0 p hp2
        simpa using hz
    · have hle : rest.countP (fun p => p.2.store.holds keyID) ≤ 1 := by
        rw [List.countP_cons] at huniq
        omega
      rw [removeFirstRemote, if_neg hh] at hp
      rcases List.mem_cons.mp hp with rfl | hp2
      · cases hval : hs.store.holds keyID
        · rfl
        · exact absurd hval hh
      · exact ih hle p hp2

/-- A client holding key ID a both locally and in a remote source. -/
def c6X : HTTPClient :=
  ⟨{ keys := [⟨"a", 1⟩] },
    [("r1", ⟨{ keys := [⟨"a", 2⟩] }, Except.ok NewMemoryStorage, {}⟩)],
    false, 0, none⟩

/-- C6 counterexample: with the same ID held by the local store and a remote
source, the first delete removes the local copy and returns true, and an
immediate second delete still succeeds on the remote copy, refuting the
claim that a second immediate delete of the same ID returns false with no
error. -/
theorem c6_counterexample :
    (c6X.KeyDelete "a").1 = Except.ok true ∧
    ((c6X.KeyDelete "a").2.KeyDelete "a").1 = Except.ok true ∧
    ((c6X.KeyDelete "a").2.KeyDelete "a").1 ≠ Except.ok false := by
  exact ⟨by decide, by decide, by decide⟩

/-- C6 amended: KeyDelete tolerates local not-found but aborts wrapped on
any other local failure; a non-not-found remote deletion failure aborts
wrapped after the earlier sources miss; under failure-free stores it
returns true exactly when some source holds the ID, removing the key from
the first source in priority order only; and when at most one source holds
the ID at call time, an immediate second delete returns false with no
error. -/
theorem c6_delete_first_holder (c : HTTPClient) (keyID : String) :
    (∀ e, c.given.deleteFail = some e → e.isKeyNotFound = false →
      c.KeyDelete keyID = (Except.error (wrapDeleteGiven keyID e), c) ∧
      (wrapDeleteGiven keyID e).msg =
        ("failed to delete key with ID " ++ quoteGo keyID ++
          " from given storage due to error: ") ++ e.msg) ∧
    (∀ pre u h post e, c.given.deleteFail = none → c.given.holds keyID = false →
      c.httpURLs = pre ++ (u, h) :: post →
      (∀ q ∈ pre, q.2.store.deleteFail = none ∧ q.2.store.holds keyID = false) →
      h.store.deleteFail = some e → e.isKeyNotFound = false →
      (c.KeyDelete keyID).1 = Except.error (wrapDeleteHTTP keyID e)) ∧
    (c.given.deleteFail = none → (∀ p ∈ c.httpURLs, p.2.store.deleteFail = none) →
      c.KeyDelete keyID =
        (Except.ok (c.given.holds keyID || c.httpURLs.any (fun p => p.2.store.holds keyID)),
         specDeleteClient c keyID)) ∧
    (c.given.deleteFail = none → (∀ p ∈ c.httpURLs, p.2.store.deleteFail = none) →
      (if c.given.holds keyID then 1 else 0) +
        c.httpURLs.countP (fun p => p.2.store.holds keyID) ≤ 1 →
      ((c.KeyDelete keyID).2.KeyDelete keyID).1 = Except.ok false) := by
  refine ⟨?_, ?_, ?_, ?_⟩
  · intro e he hnf
    exact ⟨by simp [HTTPClient.KeyDelete, SimStore.KeyDelete, he, hnf], rfl⟩
  · intro pre u h post e hg hgf hsplit hpre he hnf
    have hany : c.given.keys.any (fun j => j.kid == keyID) = false := hgf
    have hab := deleteRemoteLoop_head_abort keyID u h post e he hnf
    have hloop1 : (deleteRemoteLoop keyID c.httpURLs).1 =
        Except.error (wrapDeleteHTTP keyID e) := by
      rw [hsplit, deleteRemoteLoop_skip_miss keyID pre ((u, h) :: post) hpre]
      exact hab
    cases hloop : deleteRemoteLoop keyID c.httpURLs with
    | mk r stores =>
      rw [hloop] at hloop1
      simp only at hloop1
      simp [HTTPClient.KeyDelete, SimStore.KeyDelete, hg, hany, hloop, hloop1]
  · intro hg hr
    exact keyDelete_wf c keyID hg hr
  · intro hg hr huniq
    have h2sec : (c.KeyDelete keyID).2 = specDeleteClient c keyID := by
      rw [keyDelete_wf c keyID hg hr]
    rw [h2sec]
    by_cases hh : c.given.holds keyID = true
    · have hrest0 : c.httpURLs.countP (fun p => p.2.store.holds keyID) = 0 := by
        simp [hh] at huniq
        rw [List.countP_eq_zero]
        intro p hp
        simp [huniq p.1 p.2 hp]
      have hsd : specDeleteClient c keyID = { c with given := removeKid c.given keyID } := by
        rw [specDeleteClient, if_pos hh]
      rw [hsd]
      rw [keyDelete_wf { c with given := removeKid c.given keyID } keyID hg hr]
      have hgone : (removeKid c.given keyID).holds keyID = false :=
        removeKid_not_holds c.given keyID
      have hnone : c.httpURLs.any (fun p => p.2.store.holds keyID) = false := by
        rw [List.any_eq_false]
        intro p hp
        have hz := List.countP_eq_zero.mp hrest0 p hp
        simpa using hz
      simp [hgone, hnone]
    · have hhf : c.given.holds keyID = false := by
        cases hval : c.given.holds keyID
        · rfl
        · exact absurd hval hh
      have hle : c.httpURLs.countP (fun p => p.2.store.holds keyID) ≤ 1 := by
        simp [hhf] at huniq
        omega
      have hsd : specDeleteClient c keyID =
          { c with httpURLs := removeFirstRemote keyID c.httpURLs } := by
        rw [specDeleteClient, if_neg (by rw [hhf]; exact Bool.false_ne_true)]
      rw [hsd]
      rw [keyDelete_wf { c with httpURLs := removeFirstRemote keyID c.httpURLs } keyID hg
        (removeFirstRemote_deleteFail keyID c.httpURLs hr)]
      have hnone : (removeFirstRemote keyID c.httpURLs).any
          (fun p => p.2.store.holds keyID) = false := by
        rw [List.any_eq_false]
        intro p hp
        have hz := removeFirstRemote_no_holder keyID c.httpURLs hle p hp
        simp [hz]
      simp [hhf, hnone]

/-- A client whose local store alone holds key ID a. -/
def c6W : HTTPClient :=
  ⟨{ keys := [⟨"a", 1⟩] },
    [("r1", ⟨{ keys := [⟨"b", 2⟩] }, Except.ok NewMemoryStorage, {}⟩)],
    false, 0, none⟩

/-- C6 witness: with one holder the delete succeeds once and an immediate
second delete reports nothing deleted. -/
theorem c6_witness :
    c6W.KeyDelete "a" =
      (Except.ok (c6W.given.holds "a" || c6W.httpURLs.any (fun p => p.2.store.holds "a")),
       specDeleteClient c6W "a") ∧
    (c6W.KeyDelete "a").1 = Except.ok true ∧
    ((c6W.KeyDelete "a").2.KeyDelete "a").1 = Except.ok false :=
  ⟨(c6_delete_first_holder c6W "a").2.2.1 rfl (by decide), by decide,
    (c6_delete_first_holder c6W "a").2.2.2 rfl (by decide) (by decide)⟩

end Jwkset
